import Mathlib

/-! Shallow embedding of the CyberFusion 4.0 simulated security pipeline
    (ingestion, processing, analytics and orchestration stages of
    src/lib/dataIngestion.ts, src/lib/dataProcessing.ts, src/lib/analytics.ts
    and src/lib/orchestration.ts).

    Modelling conventions, used consistently below:
    * JavaScript `Date` values are natural-number timestamps (milliseconds).
    * Every interpolated id of the shape "xyz-Date.now()-random" is drawn from
      an explicit oracle argument (`fresh`), one value per generation site in
      evaluation order; `Math.random()` draws are likewise explicit arguments.
    * JavaScript number arithmetic in the risk engines is modelled as exact
      rational/natural arithmetic (`Math.floor` of a nonnegative quotient is
      natural-number division).
    * A TypeScript `Map` is modelled either as a total function into `Option`
      (ingestion state, where insertion order is irrelevant) or as an
      association list in insertion order (incident store and risk-score
      cache, where `Array.from(map.values())` order matters); `Map.set`
      updates in place when the key exists and appends otherwise.
    * `throw` is modelled with `Except.error`; where the thrown exception is
      observed together with the (unchanged) service state, the operation
      returns the state alongside the `Except` value.
    * The opaque `any` payloads are projected to the fields the pipeline
      actually reads; UI-only fields of entity records are omitted. -/

namespace CyberFusion

/-! ## Subscriber notification (all four stages)

The four notification loops — `notifyDataCallbacks`, `notifyProcessingCallbacks`,
`notifyAnalyticsCallbacks` and `notifyOrchestrationCallbacks` — are textually
identical `for … of` loops whose body invokes the callback inside
`try { cb(x) } catch (e) { console.error(…) }`.  A callback is modelled as a
function that may fail (`Except`); the embedded loop records, per callback and
in invocation order, whether the call succeeded or whether its exception was
caught.  The loop itself returns a plain list (no `Except`): the catch clause
swallows the exception, so no error propagates to the emitting stage. -/

inductive CallLog (ε : Type) where
  | succeeded
  | caught (e : ε)
deriving DecidableEq

/-- Outcome of invoking one subscriber callback on the value `x`. -/
def callOutcome {α ε : Type} (cb : α → Except ε Unit) (x : α) : CallLog ε :=
  match cb x with
  | .ok _ => .succeeded
  | .error e => .caught e

/-- Embeds the `for (const callback of …) { try { callback(x) } catch … }`
notification loop shared by all four stages. -/
def notifyLoop {α ε : Type} : List (α → Except ε Unit) → α → List (CallLog ε)
  | [], _ => []
  | cb :: rest, x => callOutcome cb x :: notifyLoop rest x

/-! ## Ingestion stage (`DataIngestionService`) -/

/-- Embeds the `DataSource` record (fields read by the ingestion service). -/
structure DataSource where
  id : String
  name : String
  type : String
  environment : String
  pollingInterval : Option Nat
  status : String
  lastSyncTime : Option Nat := none
deriving DecidableEq

/-- Mutable state of `DataIngestionService`: `dataSources`,
`collectionIntervals` (timer handles), `dataBuffer` and `bufferSize`.
The record type collected from a source is abstract (`α`). -/
structure IngestionState (α : Type) where
  dataSources : String → Option DataSource
  collectionIntervals : String → Option Nat
  dataBuffer : String → Option (List α)
  bufferSize : Nat

/-- Point update of a string-keyed map (`Map.set` / `Map.delete`). -/
def setKey {β : Type} (m : String → Option β) (k : String) (v : Option β) :
    String → Option β :=
  fun j => if j = k then v else m j

/-- Embeds `DataIngestionService.stopCollection`: clears the timer when one is
registered and otherwise does nothing. -/
def stopCollection {α : Type} (s : IngestionState α) (id : String) :
    IngestionState α :=
  match s.collectionIntervals id with
  | some _ => { s with collectionIntervals := setKey s.collectionIntervals id none }
  | none => s

/-- Embeds `DataIngestionService.removeDataSource`. -/
def removeDataSource {α : Type} (s : IngestionState α) (id : String) :
    IngestionState α :=
  let s1 := if (s.collectionIntervals id).isSome then stopCollection s id else s
  { s1 with dataSources := setKey s1.dataSources id none,
            dataBuffer := setKey s1.dataBuffer id none }

/-- Embeds `DataIngestionService.getBufferedData`. -/
def getBufferedData {α : Type} (s : IngestionState α) (id : String) : List α :=
  (s.dataBuffer id).getD []

/-- Embeds `DataIngestionService.startCollection`; `timerId` stands for the
handle returned by `setInterval`.  On an unknown id the service throws with the
state untouched. -/
def startCollection {α : Type} (s : IngestionState α) (id : String)
    (timerId : Nat) : Except String Unit × IngestionState α :=
  match s.dataSources id with
  | none => (.error ("Data source with ID " ++ id ++ " not found"), s)
  | some _ =>
    let s1 := if (s.collectionIntervals id).isSome then stopCollection s id else s
    (.ok (), { s1 with collectionIntervals := setKey s1.collectionIntervals id (some timerId) })

/-- Embeds `DataIngestionService.updateDataSource`.  On an unknown id the
service throws before any mutation. -/
def updateDataSource {α : Type} (s : IngestionState α) (ds : DataSource)
    (timerId : Nat) : Except String Unit × IngestionState α :=
  match s.dataSources ds.id with
  | none => (.error ("Data source with ID " ++ ds.id ++ " not found"), s)
  | some _ =>
    let s1 := if (s.collectionIntervals ds.id).isSome then stopCollection s ds.id else s
    let s2 := { s1 with dataSources := setKey s1.dataSources ds.id (some ds) }
    if ds.status = "active" ∧ ds.pollingInterval.isSome then
      startCollection s2 ds.id timerId
    else (.ok (), s2)

/-- Embeds one tick of `DataIngestionService.collectData`.  The simulated
fetch's outcome is the explicit `fetch` argument (`simulateDataCollection`
result or a thrown error).  The returned `Option (List α)` is the batch pushed
to `notifyDataCallbacks` (`none` when the catch branch ran and nothing was
emitted); buffer append, drop-oldest trim, notification and `lastSyncTime`
update follow the source order.  An unknown id throws. -/
def collectData {α : Type} (s : IngestionState α) (id : String)
    (fetch : Except String (List α)) (now : Nat) :
    Except String (IngestionState α × Option (List α)) :=
  match s.dataSources id with
  | none => .error ("Data source with ID " ++ id ++ " not found")
  | some src =>
    match fetch with
    | .ok collected =>
      let buffer := ((s.dataBuffer id).getD []) ++ collected
      let buffer := if buffer.length > s.bufferSize
        then buffer.drop (buffer.length - s.bufferSize) else buffer
      let syncedSrc : DataSource := { src with lastSyncTime := some now }
      .ok ({ s with
              dataBuffer := setKey s.dataBuffer id (some buffer),
              dataSources := setKey s.dataSources id (some syncedSrc) },
           some collected)
    | .error _ =>
      let erroredSrc : DataSource := { src with status := "error" }
      .ok ({ s with dataSources := setKey s.dataSources id (some erroredSrc) },
           none)

/-! ## Processing stage (`DataProcessingService`) -/

/-- Fields of the opaque record payload that the pipeline reads. -/
structure Payload where
  environment : Option String := none
  sourceIP : Option String := none
  destinationIP : Option String := none
  deviceId : Option String := none
  resource : Option String := none
deriving DecidableEq

/-- Raw ingestion record as consumed by the normalizers. -/
structure RawRecord where
  timestamp : Nat
  sourceId : String
  sourceName : String
  payload : Payload
deriving DecidableEq

/-- Threat-intel enrichment annotation. -/
structure ThreatIntel where
  malicious : Bool
  score : Nat
  categories : List String
deriving DecidableEq

/-- Asset-context enrichment annotation. -/
structure AssetContext where
  criticality : String
  owner : String
  location : String
deriving DecidableEq

/-- The `enrichments` record keyed by enricher name (the two keys the built-in
enrichers write). -/
structure Enrichments where
  threatIntel : Option ThreatIntel := none
  assetContext : Option AssetContext := none
deriving DecidableEq

/-- Embeds the `NormalizedData` shape. -/
structure NormalizedData where
  id : String
  timestamp : Nat
  sourceId : String
  sourceName : String
  sourceType : String
  data : Payload
  normalized : Bool
  enriched : Option Bool := none
  enrichments : Enrichments := {}
deriving DecidableEq

/-- Embeds the default processor's `normalize` (and, with `envTag` set, the
IT/OT/Cloud processors, which additionally stamp `data.environment`); `fresh`
supplies the generated event ids. -/
def defaultNormalize (fresh : Nat → String) (envTag : Option String)
    (rs : List RawRecord) : List NormalizedData :=
  rs.mapIdx fun i r =>
    { id := fresh i,
      timestamp := r.timestamp,
      sourceId := r.sourceId,
      sourceName := r.sourceName,
      sourceType := "unknown",
      data := match envTag with
        | some e => { r.payload with environment := some e }
        | none => r.payload,
      normalized := true }

/-- Embeds the `DataEnricher` interface. -/
structure DataEnricher where
  canEnrich : String → String → Bool
  enrich : List NormalizedData → List NormalizedData

/-- Embeds the enrichment loop of `processData`: every registered enricher
whose `canEnrich` passes is applied, in registration order. -/
def applyEnrichers (enrichers : List DataEnricher) (env st : String)
    (d : List NormalizedData) : List NormalizedData :=
  enrichers.foldl (fun acc e => if e.canEnrich env st then e.enrich acc else acc) d

/-- Embeds the processor lookup of `processData`: exact
"environment:sourceType" key, then environment key, then the default
processor. -/
def selectProcessor (procs : List (String × (List RawRecord → List NormalizedData)))
    (fresh : Nat → String) (env st : String) :
    List RawRecord → List NormalizedData :=
  match procs.lookup (env ++ ":" ++ st) with
  | some p => p
  | none =>
    match procs.lookup env with
    | some p => p
    | none => defaultNormalize fresh none

/-- Embeds the `ProcessedData` shape. -/
structure ProcessedData where
  environment : String
  sourceType : String
  originalCount : Nat
  normalizedCount : Nat
  enrichedCount : Nat
  data : List NormalizedData
  timestamp : Nat
deriving DecidableEq

/-- Embeds `DataProcessingService.processData` for an already-selected
normalizer. -/
def processData (normalize : List RawRecord → List NormalizedData)
    (enrichers : List DataEnricher) (env st : String)
    (raw : List RawRecord) (now : Nat) : ProcessedData :=
  let normalizedData := normalize raw
  let enrichedData := applyEnrichers enrichers env st normalizedData
  { environment := env,
    sourceType := st,
    originalCount := raw.length,
    normalizedCount := normalizedData.length,
    enrichedCount := enrichedData.length,
    data := enrichedData,
    timestamp := now }

/-- Embeds the registered "threat-intel" enricher; `draw` supplies the
per-record random annotation. -/
def threatIntelEnricher (draw : Nat → ThreatIntel) : DataEnricher where
  canEnrich := fun _ _ => true
  enrich := fun d => d.mapIdx fun i item =>
    if (item.data.sourceIP).isSome || (item.data.destinationIP).isSome then
      { item with
        enriched := some true,
        enrichments := { item.enrichments with threatIntel := some (draw i) } }
    else item

/-- Embeds the registered "asset-context" enricher; `draw` supplies the
per-record random annotation. -/
def assetContextEnricher (draw : Nat → AssetContext) : DataEnricher where
  canEnrich := fun _ _ => true
  enrich := fun d => d.mapIdx fun i item =>
    if (item.data.deviceId).isSome || (item.data.resource).isSome then
      { item with
        enriched := some true,
        enrichments := { item.enrichments with assetContext := some (draw i) } }
    else item

/-! ## Analytics stage (`AnalyticsService`): risk scoring -/

/-- The four factor sub-scores of a risk score. -/
structure RiskFactors where
  vulnerabilities : Nat
  threats : Nat
  compliance : Nat
  exposure : Nat
deriving DecidableEq

/-- Embeds the `RiskScore` shape. -/
structure RiskScore where
  id : String
  environmentType : String
  overallScore : Nat
  factors : RiskFactors
  trend : String
  calculatedAt : Nat
deriving DecidableEq

/-- One engine invocation's random draws: `d1`–`d4` are the
`Math.floor(Math.random() * k)` values feeding the four factors and `t` the
trend pick (`Math.floor(Math.random() * 3)`). -/
structure RiskDraws where
  d1 : Nat
  d2 : Nat
  d3 : Nat
  d4 : Nat
  t : Nat
deriving DecidableEq

/-- The trend tag list indexed by the trend draw. -/
def trendOf (t : Nat) : String :=
  ["increasing", "decreasing", "stable"].getD t "increasing"

/-- Embeds one environment group of `defaultRiskScoreEngine.calculateRiskScores`:
factors `min(100, draw + base)`, overall score
`Math.floor(0.3 v + 0.3 t + 0.2 c + 0.2 e)` (exact arithmetic: natural
division by 10), id `risk-<env>-<Date.now()>`. -/
def mkDefaultRiskScore (r : RiskDraws) (env : String) (now : Nat) : RiskScore :=
  let v := min 100 (r.d1 + 20)
  let th := min 100 (r.d2 + 10)
  let c := min 100 (r.d3 + 40)
  let e := min 100 (r.d4 + 30)
  { id := "risk-" ++ env ++ "-" ++ toString now,
    environmentType := env,
    overallScore := (3 * v + 3 * th + 2 * c + 2 * e) / 10,
    factors := ⟨v, th, c, e⟩,
    trend := trendOf r.t,
    calculatedAt := now }

/-- Accumulator loop of `firstOccur`: `seen` holds the keys already created
on the grouping object. -/
def firstOccurGo : List String → List String → List String
  | _, [] => []
  | seen, x :: xs =>
    if x ∈ seen then firstOccurGo seen xs
    else x :: firstOccurGo (x :: seen) xs

/-- First-occurrence deduplication: the key order in which
`Object.entries(environmentData)` enumerates the environment groups built by
the grouping loop. -/
def firstOccur (l : List String) : List String := firstOccurGo [] l

/-- Environment grouping key of a record (`item.data.environment || 'unknown'`). -/
def envKeyOf (nd : NormalizedData) : String := nd.data.environment.getD "unknown"

/-- The per-group score loop of `defaultRiskScoreEngine.calculateRiskScores`,
indexed from `i`. -/
def scoresFor (draws : Nat → RiskDraws) (now : Nat) :
    Nat → List String → List RiskScore
  | _, [] => []
  | i, env :: rest => mkDefaultRiskScore (draws i) env now :: scoresFor draws now (i + 1) rest

/-- Embeds `defaultRiskScoreEngine.calculateRiskScores`: group records by
payload environment, emit one score per group; `draws i` are the random draws
of the i-th group's score. -/
def defaultCalcRiskScores (draws : Nat → RiskDraws) (now : Nat)
    (data : List NormalizedData) : List RiskScore :=
  scoresFor draws now 0 (firstOccur (data.map envKeyOf))

/-- Embeds the registered IT risk engine (same weights as the default engine,
different factor ranges). -/
def itCalcRiskScores (r : RiskDraws) (now : Nat) : List RiskScore :=
  let v := min 100 (r.d1 + 20)
  let th := min 100 (r.d2 + 30)
  let c := min 100 (r.d3 + 40)
  let e := min 100 (r.d4 + 30)
  [{ id := "risk-IT-" ++ toString now,
     environmentType := "IT",
     overallScore := (3 * v + 3 * th + 2 * c + 2 * e) / 10,
     factors := ⟨v, th, c, e⟩,
     trend := trendOf r.t,
     calculatedAt := now }]

/-- Embeds the registered OT risk engine (weights 0.2/0.2/0.3/0.3). -/
def otCalcRiskScores (r : RiskDraws) (now : Nat) : List RiskScore :=
  let v := min 100 (r.d1 + 10)
  let th := min 100 (r.d2 + 20)
  let c := min 100 (r.d3 + 30)
  let e := min 100 (r.d4 + 20)
  [{ id := "risk-OT-" ++ toString now,
     environmentType := "OT",
     overallScore := (2 * v + 2 * th + 3 * c + 3 * e) / 10,
     factors := ⟨v, th, c, e⟩,
     trend := trendOf r.t,
     calculatedAt := now }]

/-- Embeds the registered Cloud risk engine (weights 0.2/0.3/0.3/0.2). -/
def cloudCalcRiskScores (r : RiskDraws) (now : Nat) : List RiskScore :=
  let v := min 100 (r.d1 + 20)
  let th := min 100 (r.d2 + 20)
  let c := min 100 (r.d3 + 30)
  let e := min 100 (r.d4 + 40)
  [{ id := "risk-Cloud-" ++ toString now,
     environmentType := "Cloud",
     overallScore := (2 * v + 3 * th + 3 * c + 2 * e) / 10,
     factors := ⟨v, th, c, e⟩,
     trend := trendOf r.t,
     calculatedAt := now }]

/-- The risk-score cache `riskScores : Map<string, RiskScore>` in insertion
order. -/
abbrev RiskCache : Type := List (String × RiskScore)

/-- Embeds `Map.set` on the risk-score cache: in-place update when the key is
present, append otherwise. -/
def cacheSet (c : RiskCache) (k : String) (v : RiskScore) : RiskCache :=
  if (List.any c fun p => decide (p.1 = k)) then
    List.map (fun p => if p.1 = k then (k, v) else p) c
  else List.append c [(k, v)]

/-- Cache lookup (`Map.get`). -/
def cacheFind (c : RiskCache) (k : String) : Option RiskScore :=
  (List.find? (fun p => decide (p.1 = k)) c).map (fun p => p.2)

/-- Embeds the `RiskScoreEngine` interface. -/
structure RiskScoreEngine where
  calculateRiskScores : List NormalizedData → List RiskScore

/-- Embeds the engine lookup in `AnalyticsService.calculateRiskScores`:
exact "environment:sourceType" key, then environment key, then the default
engine. -/
def selectEngine (engines : List (String × RiskScoreEngine))
    (dflt : RiskScoreEngine) (env st : String) : RiskScoreEngine :=
  match engines.lookup (env ++ ":" ++ st) with
  | some e => e
  | none =>
    match engines.lookup env with
    | some e => e
    | none => dflt

/-- Embeds `AnalyticsService.calculateRiskScores`: run the selected engine,
then write every new score into the cache keyed by its id; returns the new
scores together with the updated cache. -/
def calculateRiskScores (engines : List (String × RiskScoreEngine))
    (dflt : RiskScoreEngine) (env st : String) (data : List NormalizedData)
    (cache : RiskCache) : List RiskScore × RiskCache :=
  let newScores := (selectEngine engines dflt env st).calculateRiskScores data
  (newScores, newScores.foldl (fun c sc => cacheSet c sc.id sc) cache)

/-! ## Orchestration stage (`OrchestrationService`) -/

/-- Embeds the `Anomaly` record (fields read by the orchestration stage). -/
structure Anomaly where
  id : String
  type : String
  description : String
  severity : String
deriving DecidableEq

/-- Embeds the `PlaybookTrigger` shape. -/
structure PlaybookTrigger where
  type : String
  severity : Option String := none
  frameworkId : Option String := none
deriving DecidableEq

/-- Embeds the `PlaybookStep` shape (the opaque `parameters` record is not
read by `executePlaybook` and is omitted). -/
structure PlaybookStep where
  name : String
  description : String
  action : String
  critical : Bool
deriving DecidableEq

/-- Embeds the `Playbook` shape. -/
structure Playbook where
  id : String
  name : String
  description : String
  type : String
  triggers : List PlaybookTrigger
  steps : List PlaybookStep
deriving DecidableEq

/-- Embeds the `PlaybookActionResult` shape. -/
structure PlaybookActionResult where
  name : String
  success : Bool
  error : Option String
  timestamp : Nat
deriving DecidableEq

/-- Embeds the `OrchestrationResult` shape for playbook executions (the
opaque `context` is omitted; `duration = endTime - startTime`). -/
structure OrchestrationResult where
  type : String
  name : String
  success : Bool
  actions : List PlaybookActionResult
  startTime : Nat
  endTime : Nat
deriving DecidableEq

/-- Embeds the `IncidentEvent` shape. -/
structure IncidentEvent where
  id : String
  incidentId : String
  type : String
  description : String
  timestamp : Nat
deriving DecidableEq

/-- Embeds the `Incident` shape. -/
structure Incident where
  id : String
  title : String
  description : String
  severity : String
  status : String
  affectedAssets : List String
  relatedAnomalies : List String
  timeline : List IncidentEvent
  createdAt : Nat
  updatedAt : Nat
deriving DecidableEq

/-- The orchestration state relevant to incident handling: the playbook
registry and the incident store (`Map`s in insertion order).  The policy
registry is omitted: policy enforcement and compliance playbooks never touch
the incident store. -/
structure OrchestrationState where
  playbooks : List Playbook
  incidents : List Incident
deriving DecidableEq

/-- Embeds `OrchestrationService.findPlaybookForAnomaly`: first registered
playbook of type "anomaly" with a trigger matching the anomaly's type and
severity (`trigger.severity === anomaly.severity`, so a trigger without a
severity never matches). -/
def findPlaybookForAnomaly (pbs : List Playbook) (a : Anomaly) : Option Playbook :=
  pbs.find? fun pb =>
    decide (pb.type = "anomaly") &&
    pb.triggers.any fun tr =>
      decide (tr.type = a.type) && decide (tr.severity = some a.severity)

/-- Result of `simulateActionExecution` for one step with success draw `ok`. -/
def mkActionResult (step : PlaybookStep) (ok : Bool) (now : Nat) :
    PlaybookActionResult :=
  { name := step.name, success := ok,
    error := if ok then none else some "Simulated failure",
    timestamp := now }

/-- Embeds the step loop of `executePlaybook`, started at draw index `i`:
`rand j` is the j-th `simulateActionExecution` success draw
(`Math.random() > 0.05`).  A failed step marked critical stops the loop after
its result is recorded.  `simulateActionExecution` is total, so the
catch-branch of the source loop is unreachable and not modelled.  The whole
synchronous execution is modelled at the single clock instant `now`. -/
def execSteps (rand : Nat → Bool) (now : Nat) : Nat → List PlaybookStep → List PlaybookActionResult
  | _, [] => []
  | i, step :: rest =>
    let act := mkActionResult step (rand i) now
    if !(rand i) && step.critical then [act]
    else act :: execSteps rand now (i + 1) rest

/-- Embeds `OrchestrationService.executePlaybook`. -/
def executePlaybook (pb : Playbook) (rand : Nat → Bool) (now : Nat) :
    OrchestrationResult :=
  let actions := execSteps rand now 0 pb.steps
  { type := "playbook",
    name := pb.name,
    success := actions.all fun a => a.success,
    actions := actions,
    startTime := now,
    endTime := now }

/-- Embeds `Map.set` on the incident store: in-place update when an incident
with the id exists, append otherwise. -/
def incSet (incs : List Incident) (inc : Incident) : List Incident :=
  if incs.any (fun x => decide (x.id = inc.id)) then
    incs.map fun x => if x.id = inc.id then inc else x
  else incs ++ [inc]

/-- The playbook-execution event appended by `createOrUpdateIncident`'s
update branch. -/
def actionEventFor (fresh : Nat → String) (now : Nat) (resultName : String)
    (incidentId : String) : IncidentEvent :=
  { id := fresh 0, incidentId := incidentId, type := "action",
    description := "Executed playbook: " ++ resultName, timestamp := now }

/-- The freshly created incident of `createOrUpdateIncident`'s else-branch. -/
def newIncidentOf (fresh : Nat → String) (now : Nat) (a : Anomaly)
    (resultName : String) : Incident :=
  { id := fresh 0,
    title := "Incident: " ++ a.description,
    description := "Incident created from anomaly: " ++ a.description,
    severity := a.severity,
    status := "new",
    affectedAssets := [],
    relatedAnomalies := [a.id],
    timeline := [
      { id := fresh 1, incidentId := fresh 2, type := "detection",
        description := "Anomaly detected: " ++ a.description, timestamp := now },
      { id := fresh 3, incidentId := fresh 4, type := "action",
        description := "Executed playbook: " ++ resultName, timestamp := now }],
    createdAt := now,
    updatedAt := now }

/-- The updated incident of `createOrUpdateIncident`'s found-branch: the
existing incident with one "action" event appended and `updatedAt` bumped. -/
def updatedWithAction (fresh : Nat → String) (now : Nat) (resultName : String)
    (existing : Incident) : Incident :=
  { existing with
    updatedAt := now,
    timeline := existing.timeline ++ [actionEventFor fresh now resultName existing.id] }

/-- Embeds `OrchestrationService.createOrUpdateIncident`: look for an
incident whose `relatedAnomalies` includes the anomaly id; append a playbook
"action" event to it, or create a fresh incident with a "detection" and an
"action" event.  `fresh k` is the k-th generated id string of the call (note
the source generates the `incidentId` fields of the new incident's events as
fresh strings of their own). -/
def createOrUpdateIncident (fresh : Nat → String) (now : Nat) (a : Anomaly)
    (resultName : String) (incs : List Incident) : List Incident :=
  match incs.find? (fun inc => decide (a.id ∈ inc.relatedAnomalies)) with
  | some existing =>
    incSet incs (updatedWithAction fresh now resultName existing)
  | none =>
    incSet incs (newIncidentOf fresh now a resultName)

/-- Embeds `OrchestrationService.respondToAnomaly` restricted to its effect
on the incident store: find a playbook, execute it, create or update the
incident (callback notification has no effect on this state). -/
def respondToAnomaly (rand : Nat → Bool) (fresh : Nat → String) (now : Nat)
    (s : OrchestrationState) (a : Anomaly) : OrchestrationState :=
  match findPlaybookForAnomaly s.playbooks a with
  | some pb =>
    let result := executePlaybook pb rand now
    { s with incidents := createOrUpdateIncident fresh now a result.name s.incidents }
  | none => s

/-- The anomaly loop of `handleAnalyticsResult`, threading per-anomaly
oracles by position: only anomalies of severity "critical" or "high" are
responded to. -/
def handleAnomaliesFrom (rand : Nat → Nat → Bool) (fresh : Nat → Nat → String)
    (now : Nat) : Nat → OrchestrationState → List Anomaly → OrchestrationState
  | _, s, [] => s
  | i, s, a :: rest =>
    let s1 := if a.severity = "critical" ∨ a.severity = "high"
      then respondToAnomaly (rand i) (fresh i) now s a else s
    handleAnomaliesFrom rand fresh now (i + 1) s1 rest

/-- Embeds `OrchestrationService.handleAnalyticsResult` restricted to its
effect on the incident store (a delivered result's anomaly list; the
compliance and policy branches never touch incidents). -/
def handleAnalyticsResult (rand : Nat → Nat → Bool) (fresh : Nat → Nat → String)
    (now : Nat) (s : OrchestrationState) (anomalies : List Anomaly) :
    OrchestrationState :=
  handleAnomaliesFrom rand fresh now 0 s anomalies

/-- Embeds the public `OrchestrationService.updateIncident`: stores the
caller's incident wholesale (only `updatedAt` is recomputed). -/
def updateIncident (now : Nat) (s : OrchestrationState) (inc : Incident) :
    OrchestrationState :=
  { s with incidents := incSet s.incidents { inc with updatedAt := now } }

/-- Caller-supplied part of an incident event
(`Omit<IncidentEvent, 'id' | 'incidentId'>`), including its timestamp. -/
structure IncidentEventInput where
  type : String
  description : String
  timestamp : Nat
deriving DecidableEq

/-- The stored `IncidentEvent` built from a caller-supplied event input. -/
def eventOfInput (freshId : String) (incidentId : String)
    (ev : IncidentEventInput) : IncidentEvent :=
  { id := freshId, incidentId := incidentId, type := ev.type,
    description := ev.description, timestamp := ev.timestamp }

/-- The addressed incident with the caller's event appended and `updatedAt`
bumped. -/
def withEventAppended (freshId : String) (now : Nat) (incidentId : String)
    (ev : IncidentEventInput) (inc : Incident) : Incident :=
  { inc with
    timeline := inc.timeline ++ [eventOfInput freshId incidentId ev],
    updatedAt := now }

/-- Embeds the public `OrchestrationService.addIncidentEvent`: appends the
caller's event (with a fresh id) to the addressed incident's timeline, or
throws when the incident id is unknown. -/
def addIncidentEvent (freshId : String) (now : Nat) (s : OrchestrationState)
    (incidentId : String) (ev : IncidentEventInput) :
    Except String OrchestrationState :=
  match s.incidents.find? (fun inc => decide (inc.id = incidentId)) with
  | none => .error ("Incident with ID " ++ incidentId ++ " not found")
  | some inc =>
    .ok { s with incidents :=
            incSet s.incidents (withEventAppended freshId now incidentId ev inc) }

/-- State effect of `addIncidentEvent` as seen by the service: when the call
throws, the store is untouched. -/
def tryAddIncidentEvent (freshId : String) (now : Nat) (s : OrchestrationState)
    (incidentId : String) (ev : IncidentEventInput) : OrchestrationState :=
  match addIncidentEvent freshId now s incidentId ev with
  | .ok s1 => s1
  | .error _ => s

/-! ## Reachable orchestration states

Ghost-instrumented reachability for the incident store: states reachable from
an empty store by anomaly responses and event additions.  `resp` collects the
ids of anomalies that triggered a playbook response; `c` is a clock bound (all
generated timestamps so far are at most `c`).  The `respond` step requires
the generated incident id to be fresh (the source draws it from
`Date.now()` plus a 9-character random suffix) and a monotone wall clock; the
`addEvent` step requires the caller-supplied event timestamp not to predate
the clock — the pipeline itself always passes `new Date()`. -/

/-- Anomaly-response id log update: the anomaly is recorded exactly when a
playbook matched. -/
def respondedUpd (s : OrchestrationState) (a : Anomaly) (resp : List String) :
    List String :=
  if (findPlaybookForAnomaly s.playbooks a).isSome then a.id :: resp else resp

inductive Reach : OrchestrationState → List String → Nat → Prop where
  | init (pbs : List Playbook) : Reach ⟨pbs, []⟩ [] 0
  | respond {s : OrchestrationState} {resp : List String} {c : Nat}
      (a : Anomaly) (rand : Nat → Bool) (fresh : Nat → String) (now : Nat)
      (h : Reach s resp c) (hc : c ≤ now)
      (hf : ∀ inc ∈ s.incidents, inc.id ≠ fresh 0) :
      Reach (respondToAnomaly rand fresh now s a) (respondedUpd s a resp) now
  | addEvent {s : OrchestrationState} {resp : List String} {c : Nat}
      (freshId : String) (now : Nat) (incidentId : String)
      (ev : IncidentEventInput)
      (h : Reach s resp c) (hc : c ≤ now) (hts : c ≤ ev.timestamp) :
      Reach (tryAddIncidentEvent freshId now s incidentId ev) resp
        (max now ev.timestamp)

/-- Timeline timestamps are non-decreasing in timeline order. -/
def TimelineSorted (tl : List IncidentEvent) : Prop :=
  (tl.map fun e => e.timestamp).Pairwise (· ≤ ·)

/-- The C2 state invariant: responded anomalies are covered by incidents,
incident ids are unique, and every timeline is sorted with all timestamps
bounded by the clock. -/
def StateInv (s : OrchestrationState) (resp : List String) (c : Nat) : Prop :=
  (∀ aid ∈ resp, ∃ inc ∈ s.incidents, aid ∈ inc.relatedAnomalies) ∧
  (s.incidents.map fun inc => inc.id).Nodup ∧
  (∀ inc ∈ s.incidents, TimelineSorted inc.timeline ∧
    ∀ e ∈ inc.timeline, e.timestamp ≤ c)

/-- Old timeline survives as a prefix of the new one. -/
def TimelineExtends (old new : List IncidentEvent) : Prop :=
  ∃ tail, new = old ++ tail

/-- Number of stored incidents whose `relatedAnomalies` contains `aid`. -/
def countRef (incs : List Incident) (aid : String) : Nat :=
  (incs.filter fun inc => decide (aid ∈ inc.relatedAnomalies)).length

/-! ## Concrete sample data (used to evaluate the theorems on the repo's own
sample registrations and on small states) -/

/-- The "Ransomware Response" playbook registered at module load in
`orchestration.ts`. -/
def samplePlaybook : Playbook :=
  { id := "ransomware-response",
    name := "Ransomware Response",
    description := "Automated response to ransomware detection",
    type := "anomaly",
    triggers := [
      { type := "network", severity := some "critical" },
      { type := "system", severity := some "critical" }],
    steps := [
      { name := "Isolate Affected Systems",
        description := "Isolate affected systems from the network",
        action := "isolate", critical := true },
      { name := "Capture Forensic Evidence",
        description := "Capture forensic evidence for investigation",
        action := "capture_evidence", critical := false },
      { name := "Notify Security Team",
        description := "Send notification to security team",
        action := "notify", critical := true },
      { name := "Initiate Incident Response",
        description := "Create incident and assign to security team",
        action := "create_incident", critical := true }] }

/-- A critical network anomaly matching `samplePlaybook`'s first trigger. -/
def sampleAnomaly : Anomaly :=
  { id := "anomaly-77", type := "network",
    description := "Unusual activity detected", severity := "critical" }

def sampleEvent : IncidentEvent :=
  { id := "ev-1", incidentId := "inc-1", type := "detection",
    description := "Anomaly detected", timestamp := 5 }

def sampleIncident : Incident :=
  { id := "inc-1", title := "Incident", description := "sample",
    severity := "high", status := "new", affectedAssets := [],
    relatedAnomalies := ["anomaly-1"], timeline := [sampleEvent],
    createdAt := 5, updatedAt := 5 }

def sampleOrchState : OrchestrationState :=
  { playbooks := [samplePlaybook], incidents := [sampleIncident] }

/-- `sampleIncident` with its timeline stripped, as a caller may hand it to
the public `updateIncident`. -/
def strippedIncident : Incident := { sampleIncident with timeline := [] }

def sampleSource : DataSource :=
  { id := "siem-1", name := "Main SIEM", type := "SIEM", environment := "IT",
    pollingInterval := some 60, status := "active" }

def sampleIngestion : IngestionState Nat :=
  { dataSources := fun j => if j = "siem-1" then some sampleSource else none,
    collectionIntervals := fun _ => none,
    dataBuffer := fun j => if j = "siem-1" then some [1, 2] else none,
    bufferSize := 3 }

def sampleRecordIT : NormalizedData :=
  { id := "e1", timestamp := 0, sourceId := "s", sourceName := "n",
    sourceType := "SIEM", data := { environment := some "IT" },
    normalized := true }

def sampleRawRecord : RawRecord :=
  { timestamp := 0, sourceId := "s", sourceName := "n", payload := {} }

/-- The default risk engine at wall-clock 0 with one fixed draw vector. -/
def sampleEngineA : RiskScoreEngine :=
  ⟨fun data => defaultCalcRiskScores (fun _ => ⟨0, 0, 0, 0, 0⟩) 0 data⟩

/-- The default risk engine, still at wall-clock 0 (same millisecond, hence
the same generated score id), with a different draw vector. -/
def sampleEngineB : RiskScoreEngine :=
  ⟨fun data => defaultCalcRiskScores (fun _ => ⟨1, 0, 0, 0, 0⟩) 0 data⟩

/-- A registrable enricher whose `enrich` drops every record (the
`DataEnricher` interface does not constrain `enrich`). -/
def dropAllEnricher : DataEnricher := ⟨fun _ _ => true, fun _ => []⟩

/-! ## General helper lemmas -/

theorem map_eq_self_of_mem {α : Type} {l : List α} {f : α → α}
    (h : ∀ x ∈ l, f x = x) : l.map f = l := by
  induction l with
  | nil => rfl
  | cons a t ih =>
    simp only [List.map_cons, h a (List.mem_cons_self a t)]
    rw [ih fun x hx => h x (List.mem_cons_of_mem a hx)]

/-! ## C8: subscriber notification isolation -/

/-- C8: at every pipeline stage, the subscriber notification loop invokes
every registered callback exactly once, in registration order, on the same
emitted value, recording a caught failure in place of a propagated exception:
the log has one entry per callback, and its i-th entry is exactly the outcome
of the i-th callback applied to the emitted value — independent of any
earlier callback's failure.  The loop's result type carries no exception:
the catch clause confines every subscriber error to its own entry. -/
theorem notify_callbacks_isolated {α ε : Type}
    (cbs : List (α → Except ε Unit)) (x : α) :
    (notifyLoop cbs x).length = cbs.length ∧
    ∀ i : Nat, (notifyLoop cbs x).get? i = (cbs.get? i).map fun cb => callOutcome cb x := by
  induction cbs with
  | nil => exact ⟨rfl, fun i => by cases i <;> rfl⟩
  | cons cb rest ih =>
    refine ⟨by simpa [notifyLoop] using ih.1, fun i => ?_⟩
    cases i with
    | zero => rfl
    | succ j => simpa [notifyLoop] using ih.2 j

/-- C8 evaluated on a concrete subscriber list: the second callback is still
invoked although the first one throws. -/
theorem notify_callbacks_isolated_w :
    (notifyLoop [fun _ => Except.error "boom", fun _ => Except.ok ()] (0 : Nat)).length = 2 :=
  (notify_callbacks_isolated (ε := String)
    [fun _ => Except.error "boom", fun _ => Except.ok ()] 0).1

/-! ## C7: ingestion buffer bound on a successful tick -/

/-- C7: on a successful collection tick the fetched batch is appended to the
source's buffer, the oldest records are dropped so that at most `bufferSize`
records remain — exactly the most recent ones, in arrival order (the suffix
of old-buffer-then-batch) — and the freshly fetched batch itself (not the
whole buffer) is handed to the subscriber notification. -/
theorem collect_tick_buffer_bounded {α : Type} (s : IngestionState α)
    (id : String) (src : DataSource) (batch : List α) (now : Nat)
    (hsrc : s.dataSources id = some src) :
    ∃ s1, collectData s id (.ok batch) now = .ok (s1, some batch) ∧
      ∃ newBuf,
        s1.dataBuffer id = some newBuf ∧
        newBuf.length ≤ s.bufferSize ∧
        newBuf = (((s.dataBuffer id).getD []) ++ batch).drop
          ((((s.dataBuffer id).getD []) ++ batch).length - s.bufferSize) := by
  unfold collectData
  rw [hsrc]
  refine ⟨_, rfl, ?_⟩
  refine ⟨(((s.dataBuffer id).getD []) ++ batch).drop
    ((((s.dataBuffer id).getD []) ++ batch).length - s.bufferSize), ?_, ?_, rfl⟩
  · show setKey s.dataBuffer id _ id = _
    unfold setKey
    rw [if_pos rfl]
    by_cases h : (((s.dataBuffer id).getD []) ++ batch).length > s.bufferSize
    · rw [if_pos h]
    · rw [if_neg h]
      have hz : (((s.dataBuffer id).getD []) ++ batch).length - s.bufferSize = 0 := by
        omega
      rw [hz, List.drop_zero]
  · rw [List.length_drop]
    omega

/-- C7 evaluated on a concrete source whose 2-record buffer overflows a
capacity of 3 when a 2-record batch arrives: the buffer keeps the most
recent 3 records. -/
theorem collect_tick_buffer_bounded_w :
    ∃ s1, collectData sampleIngestion "siem-1" (.ok [3, 4]) 9 = .ok (s1, some [3, 4]) ∧
      ∃ newBuf,
        s1.dataBuffer "siem-1" = some newBuf ∧
        newBuf.length ≤ sampleIngestion.bufferSize ∧
        newBuf = (((sampleIngestion.dataBuffer "siem-1").getD []) ++ [3, 4]).drop
          ((((sampleIngestion.dataBuffer "siem-1").getD []) ++ [3, 4]).length -
            sampleIngestion.bufferSize) :=
  collect_tick_buffer_bounded sampleIngestion "siem-1" sampleSource [3, 4] 9 rfl

/-! ## C9: ingestion fetch failure leaves everything but the status alone -/

/-- C9: when the simulated fetch of a collection tick fails, the tick
completes without propagating the failure, the source's status becomes
"error", and nothing else changes: all buffers, all timer registrations
(no retry is scheduled), the buffer capacity, every other source, and the
failing source's own `lastSyncTime` are untouched, and no batch is emitted
to subscribers. -/
theorem collect_tick_failure_isolated {α : Type} (s : IngestionState α)
    (id : String) (src : DataSource) (msg : String) (now : Nat)
    (hsrc : s.dataSources id = some src) :
    (∃ s1, collectData s id (.error msg) now = .ok (s1, none)) ∧
    ∀ s1 emitted, collectData s id (.error msg) now = .ok (s1, emitted) →
      emitted = none ∧
      s1.dataBuffer = s.dataBuffer ∧
      s1.collectionIntervals = s.collectionIntervals ∧
      s1.bufferSize = s.bufferSize ∧
      s1.dataSources id = some { src with status := "error" } ∧
      (∀ j, j ≠ id → s1.dataSources j = s.dataSources j) ∧
      ({ src with status := "error" } : DataSource).lastSyncTime = src.lastSyncTime := by
  constructor
  · unfold collectData
    rw [hsrc]
    exact ⟨_, rfl⟩
  · intro s1 emitted h
    unfold collectData at h
    rw [hsrc] at h
    have h' := Except.ok.inj h
    rw [Prod.mk.injEq] at h'
    obtain ⟨h1, h2⟩ := h'
    subst h1
    subst h2
    refine ⟨rfl, rfl, rfl, rfl, ?_, ?_, rfl⟩
    · simp [setKey]
    · intro j hj
      simp [setKey, hj]

/-- C9 evaluated on the concrete sample source: the failed tick only flips
the status. -/
theorem collect_tick_failure_isolated_w :
    ∃ s1, collectData sampleIngestion "siem-1" (.error "timeout") 9 = .ok (s1, none) :=
  (collect_tick_failure_isolated sampleIngestion "siem-1" sampleSource "timeout" 9 rfl).1

/-! ## C10: totality of the ingestion lookups -/

/-- C10: `stopCollection`, `removeDataSource` and `getBufferedData` are total
on unknown ids (their embedded types are exception-free): stopping without a
running task is a no-op, removing an unregistered id leaves every other
source's registration, task and buffer unchanged, and reading the buffer of
an unknown id returns the empty list — whereas `updateDataSource` and
`startCollection` throw a not-found error on an unknown id while leaving the
whole service state unchanged. -/
theorem ingestion_unknown_id_totality {α : Type} (s : IngestionState α)
    (id : String) (ds : DataSource) (timerId : Nat) :
    (s.collectionIntervals id = none → stopCollection s id = s) ∧
    (s.dataSources id = none → ∀ j, j ≠ id →
      (removeDataSource s id).dataSources j = s.dataSources j ∧
      (removeDataSource s id).collectionIntervals j = s.collectionIntervals j ∧
      (removeDataSource s id).dataBuffer j = s.dataBuffer j) ∧
    (s.dataBuffer id = none → getBufferedData s id = []) ∧
    (s.dataSources ds.id = none →
      updateDataSource s ds timerId =
        (.error ("Data source with ID " ++ ds.id ++ " not found"), s)) ∧
    (s.dataSources id = none →
      startCollection s id timerId =
        (.error ("Data source with ID " ++ id ++ " not found"), s)) := by
  refine ⟨?_, ?_, ?_, ?_, ?_⟩
  · intro h
    simp [stopCollection, h]
  · intro _ j hj
    unfold removeDataSource
    by_cases hint : (s.collectionIntervals id).isSome
    · simp only [hint, if_pos]
      unfold stopCollection
      rcases hopt : s.collectionIntervals id with _ | k
      · rw [hopt] at hint; simp at hint
      · simp [hopt, setKey, hj]
    · simp [hint, setKey, hj]
  · intro h
    simp [getBufferedData, h]
  · intro h
    simp [updateDataSource, h]
  · intro h
    simp [startCollection, h]

/-- C10 evaluated on the concrete sample state at the unknown id "nope". -/
theorem ingestion_unknown_id_totality_w :
    stopCollection sampleIngestion "nope" = sampleIngestion ∧
    getBufferedData sampleIngestion "nope" = [] ∧
    (removeDataSource sampleIngestion "nope").dataSources "siem-1" =
      sampleIngestion.dataSources "siem-1" ∧
    startCollection sampleIngestion "nope" 1 =
      (.error ("Data source with ID " ++ "nope" ++ " not found"), sampleIngestion) :=
  ⟨(ingestion_unknown_id_totality sampleIngestion "nope" sampleSource 1).1 rfl,
   (ingestion_unknown_id_totality sampleIngestion "nope" sampleSource 1).2.2.1 rfl,
   ((ingestion_unknown_id_totality sampleIngestion "nope" sampleSource 1).2.1 rfl
      "siem-1" (by decide)).1,
   (ingestion_unknown_id_totality sampleIngestion "nope" sampleSource 1).2.2.2.2 rfl⟩

/-! ## C3: enrichment preserves record counts -/

theorem applyEnrichers_length {enrichers : List DataEnricher} {env st : String}
    (h : ∀ e ∈ enrichers, ∀ l, (e.enrich l).length = l.length) :
    ∀ d, (applyEnrichers enrichers env st d).length = d.length := by
  induction enrichers with
  | nil => intro d; rfl
  | cons e rest ih =>
    intro d
    have hrest : ∀ e1 ∈ rest, ∀ l, (e1.enrich l).length = l.length :=
      fun e1 h1 => h e1 (List.mem_cons_of_mem e h1)
    show (applyEnrichers rest env st (if e.canEnrich env st then e.enrich d else d)).length = _
    rw [ih hrest]
    by_cases hc : e.canEnrich env st
    · rw [if_pos hc, h e (List.mem_cons_self e rest)]
    · rw [if_neg hc]

/-- C3 counterexample: the claim quantifies over every set of registered
enrichers, but the `DataEnricher` interface does not force `enrich` to
preserve the record count — registering an enricher that drops every record
yields a processed batch with `normalizedCount = 1` and `enrichedCount = 0`. -/
theorem processed_counts_cex :
    (processData (selectProcessor [] (fun _ => "ev-0") "IT" "SIEM")
      [dropAllEnricher] "IT" "SIEM" [sampleRawRecord] 0).normalizedCount = 1 ∧
    (processData (selectProcessor [] (fun _ => "ev-0") "IT" "SIEM")
      [dropAllEnricher] "IT" "SIEM" [sampleRawRecord] 0).enrichedCount = 0 := by
  constructor <;> rfl

/-- C3 (amended): for every batch emitted by the processing stage,
`enrichedCount` equals `normalizedCount` provided every registered enricher's
`enrich` preserves the number of records; the two enrichers the repository
registers — "threat-intel" and "asset-context" — do preserve it (they map
record-wise, only attaching annotations), so the emitted counts agree for the
shipped registrations. -/
theorem processed_counts_agree :
    (∀ procs fresh enrichers env st raw now,
      (∀ e ∈ enrichers, ∀ l, (e.enrich l).length = l.length) →
      (processData (selectProcessor procs fresh env st) enrichers env st raw now).enrichedCount =
        (processData (selectProcessor procs fresh env st) enrichers env st raw now).normalizedCount) ∧
    (∀ draw l, ((threatIntelEnricher draw).enrich l).length = l.length) ∧
    (∀ draw l, ((assetContextEnricher draw).enrich l).length = l.length) := by
  refine ⟨?_, ?_, ?_⟩
  · intro procs fresh enrichers env st raw now h
    exact applyEnrichers_length h _
  · intro draw l
    simp [threatIntelEnricher]
  · intro draw l
    simp [assetContextEnricher]

/-- C3 (amended) evaluated with the repository's two enrichers on a concrete
one-record batch. -/
theorem processed_counts_agree_w :
    (processData (selectProcessor [] (fun _ => "ev-0") "IT" "SIEM")
      [threatIntelEnricher (fun _ => ⟨false, 0, []⟩),
       assetContextEnricher (fun _ => ⟨"low", "o", "l"⟩)]
      "IT" "SIEM" [sampleRawRecord] 0).enrichedCount =
    (processData (selectProcessor [] (fun _ => "ev-0") "IT" "SIEM")
      [threatIntelEnricher (fun _ => ⟨false, 0, []⟩),
       assetContextEnricher (fun _ => ⟨"low", "o", "l"⟩)]
      "IT" "SIEM" [sampleRawRecord] 0).normalizedCount :=
  processed_counts_agree.1 [] (fun _ => "ev-0")
    [threatIntelEnricher (fun _ => ⟨false, 0, []⟩),
     assetContextEnricher (fun _ => ⟨"low", "o", "l"⟩)]
    "IT" "SIEM" [sampleRawRecord] 0 (by
      intro e he l
      simp only [List.mem_cons, List.not_mem_nil, or_false] at he
      rcases he with he | he
      · rw [he]; exact processed_counts_agree.2.1 _ l
      · rw [he]; exact processed_counts_agree.2.2 _ l)

/-! ## C5: the risk-score cache across recalculations -/

/-- C5 counterexample: cached risk scores can be overwritten.  The default
engine's score id is "risk-" + environment + "-" + Date.now(), so two
invocations for the same environment within the same millisecond produce the
same id, and the `Map.set` of the second invocation replaces the cached
entry: after the second run the entry under "risk-IT-0" is no longer the one
the first run cached. -/
theorem risk_cache_overwrite_cex :
    (cacheFind (calculateRiskScores [] sampleEngineA "IT" "SIEM"
        [sampleRecordIT] []).2 "risk-IT-0").isSome = true ∧
    cacheFind (calculateRiskScores [] sampleEngineB "IT" "SIEM" [sampleRecordIT]
        (calculateRiskScores [] sampleEngineA "IT" "SIEM" [sampleRecordIT] []).2).2
        "risk-IT-0" ≠
      cacheFind (calculateRiskScores [] sampleEngineA "IT" "SIEM"
        [sampleRecordIT] []).2 "risk-IT-0" := by
  constructor
  · rfl
  · decide

theorem cacheFind_update_ne (t : RiskCache) (k k' : String) (v : RiskScore)
    (hne : k' ≠ k) :
    cacheFind (List.map (fun p => if p.1 = k then (k, v) else p) t) k' =
      cacheFind t k' := by
  induction t with
  | nil => rfl
  | cons p t ih =>
    unfold cacheFind at ih ⊢
    rw [List.map_cons]
    by_cases hpk : p.1 = k'
    · have hp : ¬ p.1 = k := fun hh => hne (hpk ▸ hh)
      rw [if_neg hp]
      rw [List.find?_cons_of_pos _ (by simpa using hpk),
          List.find?_cons_of_pos _ (by simpa using hpk)]
    · by_cases hp : p.1 = k
      · rw [if_pos hp]
        rw [List.find?_cons_of_neg _ (by simpa using fun hh : (k : String) = k' => hne hh.symm),
            List.find?_cons_of_neg _ (by simpa using hpk)]
        exact ih
      · rw [if_neg hp]
        rw [List.find?_cons_of_neg _ (by simpa using hpk),
            List.find?_cons_of_neg _ (by simpa using hpk)]
        exact ih

theorem cacheFind_update_self (t : RiskCache) (k : String) (v : RiskScore)
    (hmem : (t.any fun p => decide (p.1 = k)) = true) :
    cacheFind (List.map (fun p => if p.1 = k then (k, v) else p) t) k = some v := by
  induction t with
  | nil => simp at hmem
  | cons p t ih =>
    rw [List.map_cons]
    by_cases hp : p.1 = k
    · rw [if_pos hp]
      unfold cacheFind
      rw [List.find?_cons_of_pos _ (by simp)]
      rfl
    · rw [if_neg hp]
      unfold cacheFind at ih ⊢
      rw [List.find?_cons_of_neg _ (by simpa using hp)]
      have hmem' : (t.any fun p => decide (p.1 = k)) = true := by
        rw [List.any_cons] at hmem
        simpa [hp] using hmem
      exact ih hmem'

theorem cacheFind_cacheSet_self (c : RiskCache) (k : String) (v : RiskScore) :
    cacheFind (cacheSet c k v) k = some v := by
  unfold cacheSet
  by_cases h : (List.any c fun p => decide (p.1 = k)) = true
  · rw [if_pos h]
    exact cacheFind_update_self c k v h
  · rw [if_neg h]
    have hall : ∀ p ∈ c, ¬ ((fun p => decide (p.1 = k)) p = true) := by
      intro p hp
      have := List.any_eq_false.mp (Bool.eq_false_iff.mpr h) p hp
      simpa using this
    unfold cacheFind
    rw [show List.append c [(k, v)] = c ++ [(k, v)] from rfl, List.find?_append,
        List.find?_eq_none.mpr hall]
    rw [Option.none_or, List.find?_cons_of_pos _ (by simp)]
    rfl

theorem cacheFind_cacheSet_ne {c : RiskCache} {k k' : String} {v : RiskScore}
    (hne : k' ≠ k) : cacheFind (cacheSet c k v) k' = cacheFind c k' := by
  unfold cacheSet
  by_cases h : (List.any c fun p => decide (p.1 = k)) = true
  · rw [if_pos h]
    exact cacheFind_update_ne c k k' v hne
  · rw [if_neg h]
    unfold cacheFind
    rw [show List.append c [(k, v)] = c ++ [(k, v)] from rfl, List.find?_append]
    have hkk : ¬ ((k, v) : String × RiskScore).1 = k' := fun hh => hne hh.symm
    have hnone : List.find? (fun p => decide (p.1 = k')) [(k, v)] = none := by
      rw [List.find?_cons_of_neg _ (by simpa using hkk)]
      rfl
    rw [hnone]
    cases List.find? (fun p => decide (p.1 = k')) c <;> rfl

theorem cacheFind_cacheSet_isSome {c : RiskCache} {k k' : String} {v : RiskScore}
    (h : (cacheFind c k').isSome = true) :
    (cacheFind (cacheSet c k v) k').isSome = true := by
  by_cases hk : k' = k
  · subst hk
    rw [cacheFind_cacheSet_self]
    rfl
  · rw [cacheFind_cacheSet_ne hk]
    exact h

theorem foldl_cacheSet_preserves (scs : List RiskScore) :
    ∀ (cache : RiskCache) (k : String) (v : RiskScore),
      cacheFind cache k = some v →
      (∃ v2, cacheFind (scs.foldl (fun c sc => cacheSet c sc.id sc) cache) k = some v2) ∧
      ((∀ sc ∈ scs, sc.id ≠ k) →
        cacheFind (scs.foldl (fun c sc => cacheSet c sc.id sc) cache) k = some v) := by
  induction scs with
  | nil => intro cache k v h; exact ⟨⟨v, h⟩, fun _ => h⟩
  | cons sc rest ih =>
    intro cache k v h
    constructor
    · have h1 : (cacheFind (cacheSet cache sc.id sc) k).isSome = true :=
        cacheFind_cacheSet_isSome (by rw [h]; rfl)
      obtain ⟨v1, hv1⟩ := Option.isSome_iff_exists.mp h1
      exact (ih (cacheSet cache sc.id sc) k v1 hv1).1
    · intro hne
      have hk : k ≠ sc.id := fun hh => hne sc (List.mem_cons_self sc rest) hh.symm
      have h1 : cacheFind (cacheSet cache sc.id sc) k = some v := by
        rw [cacheFind_cacheSet_ne hk]; exact h
      exact (ih (cacheSet cache sc.id sc) k v h1).2
        fun sc1 hm => hne sc1 (List.mem_cons_of_mem sc hm)

/-- C5 (amended): an invocation of `calculateRiskScores` never removes a
cache entry — every id mapped before is still mapped afterwards — and every
cached entry whose id differs from all of the invocation's newly produced
score ids is unchanged.  An entry whose id collides with a new score's id is
overwritten (see the counterexample: the default engines generate such
collisions for two scores of the same environment within one millisecond). -/
theorem risk_cache_preservation (engines : List (String × RiskScoreEngine))
    (dflt : RiskScoreEngine) (env st : String) (data : List NormalizedData)
    (cache : RiskCache) (k : String) (v : RiskScore)
    (h : cacheFind cache k = some v) :
    (∃ v2, cacheFind (calculateRiskScores engines dflt env st data cache).2 k = some v2) ∧
    ((∀ sc ∈ (calculateRiskScores engines dflt env st data cache).1, sc.id ≠ k) →
      cacheFind (calculateRiskScores engines dflt env st data cache).2 k = some v) :=
  foldl_cacheSet_preserves _ cache k v h

/-- C5 (amended) evaluated on a concrete cache and the first sample engine
run (whose single new score id differs from the cached key). -/
theorem risk_cache_preservation_w :
    (∃ v2, cacheFind (calculateRiskScores [] sampleEngineA "IT" "SIEM"
      [sampleRecordIT] [("other-id", mkDefaultRiskScore ⟨0, 0, 0, 0, 0⟩ "OT" 3)]).2
      "other-id" = some v2) ∧
    cacheFind (calculateRiskScores [] sampleEngineA "IT" "SIEM"
      [sampleRecordIT] [("other-id", mkDefaultRiskScore ⟨0, 0, 0, 0, 0⟩ "OT" 3)]).2
      "other-id" = some (mkDefaultRiskScore ⟨0, 0, 0, 0, 0⟩ "OT" 3) :=
  ⟨(risk_cache_preservation [] sampleEngineA "IT" "SIEM" [sampleRecordIT]
      [("other-id", mkDefaultRiskScore ⟨0, 0, 0, 0, 0⟩ "OT" 3)] "other-id"
      (mkDefaultRiskScore ⟨0, 0, 0, 0, 0⟩ "OT" 3) rfl).1,
   (risk_cache_preservation [] sampleEngineA "IT" "SIEM" [sampleRecordIT]
      [("other-id", mkDefaultRiskScore ⟨0, 0, 0, 0, 0⟩ "OT" 3)] "other-id"
      (mkDefaultRiskScore ⟨0, 0, 0, 0, 0⟩ "OT" 3) rfl).2 (by decide)⟩

/-! ## C4: overall risk score = floored weighted factor sum, in [0, 100] -/

theorem overall_div_eq_floor_3322 (v t c e : ℕ) :
    (3 * v + 3 * t + 2 * c + 2 * e) / 10 =
      Nat.floor ((3 / 10 : ℚ) * v + (3 / 10 : ℚ) * t +
        (2 / 10 : ℚ) * c + (2 / 10 : ℚ) * e) := by
  have h : ((3 / 10 : ℚ) * v + (3 / 10 : ℚ) * t + (2 / 10 : ℚ) * c + (2 / 10 : ℚ) * e)
      = ((3 * v + 3 * t + 2 * c + 2 * e : ℕ) : ℚ) / ((10 : ℕ) : ℚ) := by
    push_cast
    ring
  rw [h, Nat.floor_div_nat, Nat.floor_natCast]

theorem mem_scoresFor {draws : Nat → RiskDraws} {now : Nat} :
    ∀ (envs : List String) (i : Nat) (sc : RiskScore),
      sc ∈ scoresFor draws now i envs →
      ∃ j env, sc = mkDefaultRiskScore (draws j) env now := by
  intro envs
  induction envs with
  | nil => intro i sc h; simp [scoresFor] at h
  | cons env rest ih =>
    intro i sc h
    rw [scoresFor, List.mem_cons] at h
    rcases h with h | h
    · exact ⟨i, env, h⟩
    · exact ih (i + 1) sc h

/-- C4: for every score produced by the default engine and by the IT engine,
`overallScore` is the floor of the weighted factor sum
0.3·vulnerabilities + 0.3·threats + 0.2·compliance + 0.2·exposure (JS float
arithmetic modelled as exact rationals), and every score produced by any of
the four built-in engines (default, IT, OT, Cloud) has an `overallScore`
bounded by 100 — a natural number, hence an integer in [0, 100]. -/
theorem risk_overall_floor_and_range :
    (∀ draws now data, ∀ sc ∈ defaultCalcRiskScores draws now data,
      sc.overallScore = Nat.floor ((3 / 10 : ℚ) * (sc.factors.vulnerabilities : ℚ) +
        (3 / 10 : ℚ) * (sc.factors.threats : ℚ) +
        (2 / 10 : ℚ) * (sc.factors.compliance : ℚ) +
        (2 / 10 : ℚ) * (sc.factors.exposure : ℚ)) ∧ sc.overallScore ≤ 100) ∧
    (∀ r now, ∀ sc ∈ itCalcRiskScores r now,
      sc.overallScore = Nat.floor ((3 / 10 : ℚ) * (sc.factors.vulnerabilities : ℚ) +
        (3 / 10 : ℚ) * (sc.factors.threats : ℚ) +
        (2 / 10 : ℚ) * (sc.factors.compliance : ℚ) +
        (2 / 10 : ℚ) * (sc.factors.exposure : ℚ)) ∧ sc.overallScore ≤ 100) ∧
    (∀ r now, ∀ sc ∈ otCalcRiskScores r now, sc.overallScore ≤ 100) ∧
    (∀ r now, ∀ sc ∈ cloudCalcRiskScores r now, sc.overallScore ≤ 100) := by
  refine ⟨?_, ?_, ?_, ?_⟩
  · intro draws now data sc hmem
    obtain ⟨j, env, rfl⟩ := mem_scoresFor _ 0 sc hmem
    constructor
    · exact overall_div_eq_floor_3322 _ _ _ _
    · show (3 * min 100 ((draws j).d1 + 20) + 3 * min 100 ((draws j).d2 + 10) +
        2 * min 100 ((draws j).d3 + 40) + 2 * min 100 ((draws j).d4 + 30)) / 10 ≤ 100
      have h1 := Nat.min_le_left 100 ((draws j).d1 + 20)
      have h2 := Nat.min_le_left 100 ((draws j).d2 + 10)
      have h3 := Nat.min_le_left 100 ((draws j).d3 + 40)
      have h4 := Nat.min_le_left 100 ((draws j).d4 + 30)
      omega
  · intro r now sc hmem
    rw [itCalcRiskScores, List.mem_singleton] at hmem
    subst hmem
    constructor
    · exact overall_div_eq_floor_3322 _ _ _ _
    · show (3 * min 100 (r.d1 + 20) + 3 * min 100 (r.d2 + 30) +
        2 * min 100 (r.d3 + 40) + 2 * min 100 (r.d4 + 30)) / 10 ≤ 100
      have h1 := Nat.min_le_left 100 (r.d1 + 20)
      have h2 := Nat.min_le_left 100 (r.d2 + 30)
      have h3 := Nat.min_le_left 100 (r.d3 + 40)
      have h4 := Nat.min_le_left 100 (r.d4 + 30)
      omega
  · intro r now sc hmem
    rw [otCalcRiskScores, List.mem_singleton] at hmem
    subst hmem
    show (2 * min 100 (r.d1 + 10) + 2 * min 100 (r.d2 + 20) +
      3 * min 100 (r.d3 + 30) + 3 * min 100 (r.d4 + 20)) / 10 ≤ 100
    have h1 := Nat.min_le_left 100 (r.d1 + 10)
    have h2 := Nat.min_le_left 100 (r.d2 + 20)
    have h3 := Nat.min_le_left 100 (r.d3 + 30)
    have h4 := Nat.min_le_left 100 (r.d4 + 20)
    omega
  · intro r now sc hmem
    rw [cloudCalcRiskScores, List.mem_singleton] at hmem
    subst hmem
    show (2 * min 100 (r.d1 + 20) + 3 * min 100 (r.d2 + 20) +
      3 * min 100 (r.d3 + 30) + 2 * min 100 (r.d4 + 40)) / 10 ≤ 100
    have h1 := Nat.min_le_left 100 (r.d1 + 20)
    have h2 := Nat.min_le_left 100 (r.d2 + 20)
    have h3 := Nat.min_le_left 100 (r.d3 + 30)
    have h4 := Nat.min_le_left 100 (r.d4 + 40)
    omega

/-- C4 evaluated at a concrete default-engine run over one IT record. -/
theorem risk_overall_floor_and_range_w :
    (mkDefaultRiskScore ⟨0, 0, 0, 0, 0⟩ "IT" 0).overallScore =
      Nat.floor ((3 / 10 : ℚ) *
        ((mkDefaultRiskScore ⟨0, 0, 0, 0, 0⟩ "IT" 0).factors.vulnerabilities : ℚ) +
        (3 / 10 : ℚ) * ((mkDefaultRiskScore ⟨0, 0, 0, 0, 0⟩ "IT" 0).factors.threats : ℚ) +
        (2 / 10 : ℚ) * ((mkDefaultRiskScore ⟨0, 0, 0, 0, 0⟩ "IT" 0).factors.compliance : ℚ) +
        (2 / 10 : ℚ) * ((mkDefaultRiskScore ⟨0, 0, 0, 0, 0⟩ "IT" 0).factors.exposure : ℚ)) ∧
    (mkDefaultRiskScore ⟨0, 0, 0, 0, 0⟩ "IT" 0).overallScore ≤ 100 :=
  risk_overall_floor_and_range.1 (fun _ => ⟨0, 0, 0, 0, 0⟩) 0 [sampleRecordIT]
    (mkDefaultRiskScore ⟨0, 0, 0, 0, 0⟩ "IT" 0) (by decide)

/-! ## C6: playbook execution shape -/

theorem execSteps_length_le (rand : Nat → Bool) (now : Nat) :
    ∀ (steps : List PlaybookStep) (i : Nat),
      (execSteps rand now i steps).length ≤ steps.length := by
  intro steps
  induction steps with
  | nil => intro i; exact Nat.le_refl 0
  | cons st rest ih =>
    intro i
    rw [execSteps]
    by_cases h : (!(rand i) && st.critical) = true
    · rw [if_pos h]
      exact Nat.succ_le_succ (Nat.zero_le _)
    · rw [if_neg h]
      exact Nat.succ_le_succ (ih (i + 1))

theorem execSteps_length_pos (rand : Nat → Bool) (now : Nat)
    (st : PlaybookStep) (rest : List PlaybookStep) (i : Nat) :
    0 < (execSteps rand now i (st :: rest)).length := by
  rw [execSteps]
  by_cases h : (!(rand i) && st.critical) = true
  · rw [if_pos h]; exact Nat.zero_lt_succ 0
  · rw [if_neg h]; exact Nat.zero_lt_succ _

theorem execSteps_get (rand : Nat → Bool) (now : Nat) :
    ∀ (steps : List PlaybookStep) (i j : Nat),
      j < (execSteps rand now i steps).length →
      (execSteps rand now i steps).get? j =
        (steps.get? j).map fun st => mkActionResult st (rand (i + j)) now := by
  intro steps
  induction steps with
  | nil => intro i j h; simp [execSteps] at h
  | cons st rest ih =>
    intro i j h
    rw [execSteps] at h ⊢
    by_cases hh : (!(rand i) && st.critical) = true
    · rw [if_pos hh] at h ⊢
      have hj0 : j = 0 := Nat.lt_one_iff.mp (by simpa using h)
      subst hj0
      simp
    · rw [if_neg hh] at h ⊢
      cases j with
      | zero => simp
      | succ j' =>
        rw [List.length_cons] at h
        have h' : j' < (execSteps rand now (i + 1) rest).length := Nat.lt_of_succ_lt_succ h
        have := ih (i + 1) j' h'
        rw [List.get?_cons_succ, List.get?_cons_succ, this]
        have harith : i + 1 + j' = i + (j' + 1) := by omega
        rw [harith]

theorem execSteps_attempted_no_halt (rand : Nat → Bool) (now : Nat) :
    ∀ (steps : List PlaybookStep) (i j : Nat) (st : PlaybookStep),
      steps.get? j = some st →
      j + 1 < (execSteps rand now i steps).length →
      (rand (i + j) = true ∨ st.critical = false) := by
  intro steps
  induction steps with
  | nil => intro i j st hst h; simp [execSteps] at h
  | cons s0 rest ih =>
    intro i j st hst h
    rw [execSteps] at h
    by_cases hh : (!(rand i) && s0.critical) = true
    · rw [if_pos hh] at h
      simp at h
    · rw [if_neg hh] at h
      cases j with
      | zero =>
        rw [List.get?_cons_zero] at hst
        obtain rfl : s0 = st := Option.some.inj hst
        rcases Bool.and_eq_false_iff.mp (Bool.eq_false_iff.mpr hh) with h1 | h1
        · left
          have h2 : rand i = true := by
            revert h1
            cases rand i <;> simp
          simpa using h2
        · right
          exact h1
      | succ j' =>
        rw [List.get?_cons_succ] at hst
        rw [List.length_cons] at h
        have h' : j' + 1 < (execSteps rand now (i + 1) rest).length :=
          Nat.lt_of_succ_lt_succ h
        have := ih (i + 1) j' st hst h'
        have harith : i + 1 + j' = i + (j' + 1) := by omega
        rwa [harith] at this

theorem execSteps_halted (rand : Nat → Bool) (now : Nat) :
    ∀ (steps : List PlaybookStep) (i : Nat),
      (execSteps rand now i steps).length < steps.length →
      ∃ st, steps.get? ((execSteps rand now i steps).length - 1) = some st ∧
        rand (i + ((execSteps rand now i steps).length - 1)) = false ∧
        st.critical = true := by
  intro steps
  induction steps with
  | nil => intro i h; simp [execSteps] at h
  | cons s0 rest ih =>
    intro i h
    rw [execSteps] at h ⊢
    by_cases hh : (!(rand i) && s0.critical) = true
    · rw [if_pos hh] at h ⊢
      obtain ⟨h1, h2⟩ := Bool.and_eq_true_iff.mp hh
      refine ⟨s0, ?_, ?_, h2⟩
      · rfl
      · show rand (i + (1 - 1)) = false
        rw [Bool.not_eq_true'] at h1
        simpa using h1
    · rw [if_neg hh] at h ⊢
      rw [List.length_cons] at h ⊢
      have hlt : (execSteps rand now (i + 1) rest).length < rest.length :=
        Nat.lt_of_succ_lt_succ h
      obtain ⟨st, hst, hrand, hcrit⟩ := ih (i + 1) hlt
      have hpos : 0 < (execSteps rand now (i + 1) rest).length := by
        rcases rest with _ | ⟨r0, rest'⟩
        · simp [execSteps] at hlt
        · exact execSteps_length_pos rand now r0 rest' (i + 1)
      refine ⟨st, ?_, ?_, hcrit⟩
      · have harith : (execSteps rand now (i + 1) rest).length + 1 - 1 =
          ((execSteps rand now (i + 1) rest).length - 1) + 1 := by omega
        rw [harith, List.get?_cons_succ]
        exact hst
      · have harith : i + ((execSteps rand now (i + 1) rest).length + 1 - 1) =
          i + 1 + ((execSteps rand now (i + 1) rest).length - 1) := by omega
        rw [harith]
        exact hrand

theorem execSteps_success_iff (rand : Nat → Bool) (now : Nat) :
    ∀ (steps : List PlaybookStep) (i : Nat),
      ((execSteps rand now i steps).all fun a => a.success) = true ↔
        ∀ j, j < (execSteps rand now i steps).length → rand (i + j) = true := by
  intro steps
  induction steps with
  | nil => intro i; simp [execSteps]
  | cons s0 rest ih =>
    intro i
    rw [execSteps]
    by_cases hh : (!(rand i) && s0.critical) = true
    · rw [if_pos hh]
      constructor
      · intro h j hj
        have hj0 : j = 0 := Nat.lt_one_iff.mp (by simpa using hj)
        subst hj0
        simpa [mkActionResult] using h
      · intro h
        have := h 0 (by simp)
        simpa [mkActionResult] using this
    · rw [if_neg hh]
      rw [List.all_cons]
      constructor
      · intro h j hj
        obtain ⟨h1, h2⟩ := Bool.and_eq_true_iff.mp h
        cases j with
        | zero => simpa [mkActionResult] using h1
        | succ j' =>
          rw [List.length_cons] at hj
          have := (ih (i + 1)).mp h2 j' (Nat.lt_of_succ_lt_succ hj)
          have harith : i + 1 + j' = i + (j' + 1) := by omega
          rwa [harith] at this
      · intro h
        rw [Bool.and_eq_true_iff]
        constructor
        · have := h 0 (by
            rw [List.length_cons]
            exact Nat.zero_lt_succ _)
          simpa [mkActionResult] using this
        · rw [ih (i + 1)]
          intro j hj
          have hjj : j + 1 < (mkActionResult s0 (rand i) now ::
              execSteps rand now (i + 1) rest).length := by
            rw [List.length_cons]
            exact Nat.succ_lt_succ hj
          have := h (j + 1) hjj
          have harith : i + (j + 1) = i + 1 + j := by omega
          rwa [harith] at this

/-- C6: `executePlaybook` attempts the playbook's steps strictly in list
order, producing exactly one action result per attempted step (the j-th
recorded action is `simulateActionExecution`'s result for the j-th step);
every attempted step except possibly the last one produced either a success
draw or was non-critical (non-critical failures never halt); when execution
stops short of the full list, the last attempted step is precisely a failed
critical step; and the returned result's `success` is true if and only if
every attempted action's draw succeeded. -/
theorem playbook_execution_shape (pb : Playbook) (rand : Nat → Bool) (now : Nat) :
    (executePlaybook pb rand now).actions = execSteps rand now 0 pb.steps ∧
    (execSteps rand now 0 pb.steps).length ≤ pb.steps.length ∧
    (∀ j, j < (execSteps rand now 0 pb.steps).length →
      (execSteps rand now 0 pb.steps).get? j =
        (pb.steps.get? j).map fun st => mkActionResult st (rand j) now) ∧
    (∀ j st, pb.steps.get? j = some st →
      j + 1 < (execSteps rand now 0 pb.steps).length →
      (rand j = true ∨ st.critical = false)) ∧
    ((execSteps rand now 0 pb.steps).length < pb.steps.length →
      ∃ st, pb.steps.get? ((execSteps rand now 0 pb.steps).length - 1) = some st ∧
        rand ((execSteps rand now 0 pb.steps).length - 1) = false ∧
        st.critical = true) ∧
    ((executePlaybook pb rand now).success = true ↔
      ∀ j, j < (execSteps rand now 0 pb.steps).length → rand j = true) := by
  refine ⟨rfl, execSteps_length_le rand now pb.steps 0, ?_, ?_, ?_, ?_⟩
  · intro j hj
    have := execSteps_get rand now pb.steps 0 j hj
    rwa [Nat.zero_add] at this
  · intro j st hst hj
    have := execSteps_attempted_no_halt rand now pb.steps 0 j st hst hj
    rwa [Nat.zero_add] at this
  · intro h
    obtain ⟨st, h1, h2, h3⟩ := execSteps_halted rand now pb.steps 0 h
    rw [Nat.zero_add] at h2
    exact ⟨st, h1, h2, h3⟩
  · have := execSteps_success_iff rand now pb.steps 0
    simpa [executePlaybook] using this

/-- C6 evaluated on the repository's "Ransomware Response" playbook with an
all-success draw: the run succeeds. -/
theorem playbook_execution_shape_w :
    (executePlaybook samplePlaybook (fun _ => true) 0).success = true :=
  (playbook_execution_shape samplePlaybook (fun _ => true) 0).2.2.2.2.2.mpr
    (fun _ _ => rfl)

/-! ## C1: one incident per responded anomaly, idempotent re-delivery -/

theorem find?_append_of_left_none {α : Type} {p : α → Bool} {l1 l2 : List α}
    (h : ∀ x ∈ l1, ¬ p x = true) : (l1 ++ l2).find? p = l2.find? p := by
  rw [List.find?_append, List.find?_eq_none.mpr h, Option.none_or]

theorem handle_single (rand : Nat → Nat → Bool) (fresh : Nat → Nat → String)
    (now : Nat) (s : OrchestrationState) (a : Anomaly) :
    handleAnalyticsResult rand fresh now s [a] =
      if a.severity = "critical" ∨ a.severity = "high"
      then respondToAnomaly (rand 0) (fresh 0) now s a else s := rfl

theorem respond_found (rand : Nat → Bool) (fresh : Nat → String) (now : Nat)
    (s : OrchestrationState) (a : Anomaly) (pb : Playbook)
    (hpb : findPlaybookForAnomaly s.playbooks a = some pb) :
    respondToAnomaly rand fresh now s a =
      { s with incidents := createOrUpdateIncident fresh now a pb.name s.incidents } := by
  unfold respondToAnomaly
  rw [hpb]
  rfl

theorem createOrUpdate_creates (fresh : Nat → String) (now : Nat) (a : Anomaly)
    (resultName : String) (incs : List Incident)
    (hnone : ∀ inc ∈ incs, a.id ∉ inc.relatedAnomalies)
    (hfresh : ∀ inc ∈ incs, inc.id ≠ fresh 0) :
    createOrUpdateIncident fresh now a resultName incs =
      incs ++ [newIncidentOf fresh now a resultName] := by
  unfold createOrUpdateIncident
  rw [List.find?_eq_none.mpr (fun inc hm => by simpa using hnone inc hm)]
  show incSet incs (newIncidentOf fresh now a resultName) = _
  unfold incSet
  rw [if_neg (fun hany => by
    obtain ⟨x, hx, hpx⟩ := List.any_eq_true.mp hany
    exact hfresh x hx (by simpa [newIncidentOf] using hpx))]

theorem createOrUpdate_appends (fresh : Nat → String) (now : Nat) (a : Anomaly)
    (resultName : String) (old : List Incident) (N : Incident)
    (hnone : ∀ inc ∈ old, a.id ∉ inc.relatedAnomalies)
    (hfreshN : ∀ inc ∈ old, inc.id ≠ N.id)
    (hrefN : a.id ∈ N.relatedAnomalies) :
    createOrUpdateIncident fresh now a resultName (old ++ [N]) =
      old ++ [updatedWithAction fresh now resultName N] := by
  unfold createOrUpdateIncident
  have hfind : (old ++ [N]).find? (fun inc => decide (a.id ∈ inc.relatedAnomalies)) =
      some N := by
    rw [find?_append_of_left_none (fun inc hm => by simpa using hnone inc hm)]
    exact List.find?_cons_of_pos _ (by simpa using hrefN)
  rw [hfind]
  show incSet (old ++ [N]) (updatedWithAction fresh now resultName N) = _
  unfold incSet
  rw [if_pos (List.any_eq_true.mpr
    ⟨N, List.mem_append_right old (List.mem_singleton.mpr rfl),
     decide_eq_true rfl⟩)]
  rw [List.map_append]
  congr 1
  · exact map_eq_self_of_mem (fun x hx => if_neg (fun hid => hfreshN x hx hid))
  · rw [List.map_singleton]
    rw [show (if N.id = (updatedWithAction fresh now resultName N).id
        then updatedWithAction fresh now resultName N else N) =
        updatedWithAction fresh now resultName N from if_pos rfl]

/-- C1: a critical/high anomaly delivered to the orchestration stage that
matches a registered anomaly-playbook trigger, and that no stored incident
references yet, yields after handling exactly one stored incident whose
`relatedAnomalies` contains the anomaly id; re-delivering the same anomaly
leaves that count at one and appends exactly one "action" timeline event to
the existing incident rather than creating a second one.  (Freshness of the
generated incident id — drawn from `Date.now()` plus a random suffix — is a
hypothesis.) -/
theorem anomaly_incident_idempotent
    (s : OrchestrationState) (a : Anomaly) (pb : Playbook)
    (rand1 rand2 : Nat → Nat → Bool) (fresh1 fresh2 : Nat → Nat → String)
    (now1 now2 : Nat)
    (hsev : a.severity = "critical" ∨ a.severity = "high")
    (hpb : findPlaybookForAnomaly s.playbooks a = some pb)
    (hnone : ∀ inc ∈ s.incidents, a.id ∉ inc.relatedAnomalies)
    (hfresh : ∀ inc ∈ s.incidents, inc.id ≠ fresh1 0 0) :
    countRef (handleAnalyticsResult rand1 fresh1 now1 s [a]).incidents a.id = 1 ∧
    countRef (handleAnalyticsResult rand2 fresh2 now2
      (handleAnalyticsResult rand1 fresh1 now1 s [a]) [a]).incidents a.id = 1 ∧
    ∀ inc1 ∈ (handleAnalyticsResult rand1 fresh1 now1 s [a]).incidents,
      a.id ∈ inc1.relatedAnomalies →
      ∃ inc2 ∈ (handleAnalyticsResult rand2 fresh2 now2
          (handleAnalyticsResult rand1 fresh1 now1 s [a]) [a]).incidents,
        inc2.id = inc1.id ∧
        ∃ ev, inc2.timeline = inc1.timeline ++ [ev] ∧ ev.type = "action" := by
  have hN : a.id ∈ (newIncidentOf (fresh1 0) now1 a pb.name).relatedAnomalies := by
    simp [newIncidentOf]
  have hNid : (newIncidentOf (fresh1 0) now1 a pb.name).id = fresh1 0 0 := rfl
  have h1 : handleAnalyticsResult rand1 fresh1 now1 s [a] =
      { s with incidents := s.incidents ++ [newIncidentOf (fresh1 0) now1 a pb.name] } := by
    rw [handle_single, if_pos hsev, respond_found _ _ _ _ _ _ hpb,
      createOrUpdate_creates _ _ _ _ _ hnone (fun inc hm => hfresh inc hm)]
  have h2 : handleAnalyticsResult rand2 fresh2 now2
      (handleAnalyticsResult rand1 fresh1 now1 s [a]) [a] =
      { s with incidents := s.incidents ++
        [updatedWithAction (fresh2 0) now2 pb.name
          (newIncidentOf (fresh1 0) now1 a pb.name)] } := by
    have hpb1 : findPlaybookForAnomaly
        ({ playbooks := s.playbooks,
           incidents := (s.incidents ++ [newIncidentOf (fresh1 0) now1 a pb.name]) } :
          OrchestrationState).playbooks a = some pb := hpb
    rw [h1, handle_single, if_pos hsev]
    rw [respond_found _ _ _ _ _ pb hpb1]
    show ({ playbooks := s.playbooks,
            incidents := (createOrUpdateIncident (fresh2 0) now2 a pb.name
              (s.incidents ++ [newIncidentOf (fresh1 0) now1 a pb.name])) } :
          OrchestrationState) = _
    rw [createOrUpdate_appends _ _ _ _ _ _ hnone
      (fun inc hm hid => hfresh inc hm (hNid ▸ hid)) hN]
  have hcount : ∀ (tail : Incident), a.id ∈ tail.relatedAnomalies →
      countRef (s.incidents ++ [tail]) a.id = 1 := by
    intro tail htail
    unfold countRef
    rw [List.filter_append]
    rw [List.filter_eq_nil_iff.mpr (fun inc hm => by simpa using hnone inc hm)]
    simp [htail]
  refine ⟨?_, ?_, ?_⟩
  · rw [h1]
    exact hcount _ hN
  · rw [h2]
    exact hcount _ hN
  · intro inc1 hmem1 href1
    rw [h1] at hmem1
    have hmem1' : inc1 ∈ s.incidents ++ [newIncidentOf (fresh1 0) now1 a pb.name] := hmem1
    rcases List.mem_append.mp hmem1' with hold | hnew
    · exact absurd href1 (hnone inc1 hold)
    · have heq : inc1 = newIncidentOf (fresh1 0) now1 a pb.name :=
        List.mem_singleton.mp hnew
      subst heq
      refine ⟨updatedWithAction (fresh2 0) now2 pb.name
          (newIncidentOf (fresh1 0) now1 a pb.name), ?_, rfl,
        ⟨actionEventFor (fresh2 0) now2 pb.name
          (newIncidentOf (fresh1 0) now1 a pb.name).id, rfl, rfl⟩⟩
      rw [h2]
      exact List.mem_append_right _ (List.mem_singleton.mpr rfl)

/-- C1 evaluated on the repository's own sample registration: the critical
network anomaly matching "Ransomware Response" delivered twice into an empty
incident store. -/
theorem anomaly_incident_idempotent_w :
    countRef (handleAnalyticsResult (fun _ _ => true) (fun _ k => "id-" ++ toString k) 1
      ⟨[samplePlaybook], []⟩ [sampleAnomaly]).incidents sampleAnomaly.id = 1 ∧
    countRef (handleAnalyticsResult (fun _ _ => true) (fun _ k => "id2-" ++ toString k) 2
      (handleAnalyticsResult (fun _ _ => true) (fun _ k => "id-" ++ toString k) 1
        ⟨[samplePlaybook], []⟩ [sampleAnomaly]) [sampleAnomaly]).incidents
      sampleAnomaly.id = 1 :=
  ⟨(anomaly_incident_idempotent ⟨[samplePlaybook], []⟩ sampleAnomaly samplePlaybook
      (fun _ _ => true) (fun _ _ => true) (fun _ k => "id-" ++ toString k)
      (fun _ k => "id2-" ++ toString k) 1 2 (Or.inl rfl) (by decide)
      (by intro inc h; simp at h) (by intro inc h; simp at h)).1,
   (anomaly_incident_idempotent ⟨[samplePlaybook], []⟩ sampleAnomaly samplePlaybook
      (fun _ _ => true) (fun _ _ => true) (fun _ k => "id-" ++ toString k)
      (fun _ k => "id2-" ++ toString k) 1 2 (Or.inl rfl) (by decide)
      (by intro inc h; simp at h) (by intro inc h; simp at h)).2.1⟩

/-! ## C2: incident-store invariant -/

theorem map_eq_map_of_mem {α β : Type} {l : List α} {f g : α → β}
    (h : ∀ x ∈ l, f x = g x) : l.map f = l.map g := by
  induction l with
  | nil => rfl
  | cons a t ih =>
    rw [List.map_cons, List.map_cons, h a (List.mem_cons_self a t),
      ih fun x hx => h x (List.mem_cons_of_mem a hx)]

theorem nodup_ids_append_fresh {ids : List String} {x : String}
    (hnd : ids.Nodup) (hx : ∀ y ∈ ids, y ≠ x) : (ids ++ [x]).Nodup := by
  rw [List.nodup_append]
  exact ⟨hnd, List.nodup_singleton x,
    fun y hy hz => hx y hy (List.mem_singleton.mp hz)⟩

/-- Members, ids, relatedAnomalies and timelines across the in-place-update
form of `Map.set`, for a replacement `U` sharing the id of a stored incident
`ex` and preserving its `relatedAnomalies`. -/
theorem update_branch_master {incs : List Incident} {ex U : Incident}
    (hnd : (incs.map fun i => i.id).Nodup)
    (hexmem : ex ∈ incs) (hid : U.id = ex.id)
    (hrel : U.relatedAnomalies = ex.relatedAnomalies) :
    (∀ x ∈ incs, ∃ y ∈ incs.map (fun x => if x.id = U.id then U else x),
      y.id = x.id ∧ y.relatedAnomalies = x.relatedAnomalies ∧
      (y = x ∨ (x = ex ∧ y = U))) ∧
    ((incs.map (fun x => if x.id = U.id then U else x)).map (fun i => i.id) =
      incs.map fun i => i.id) ∧
    (∀ y ∈ incs.map (fun x => if x.id = U.id then U else x), y = U ∨ y ∈ incs) := by
  have hinj := List.inj_on_of_nodup_map hnd
  have hgid : ∀ x ∈ incs, (if x.id = U.id then U else x).id = x.id := by
    intro x hx
    by_cases hxy : x.id = U.id
    · rw [if_pos hxy]; exact hxy.symm
    · rw [if_neg hxy]
  refine ⟨?_, ?_, ?_⟩
  · intro x hx
    refine ⟨if x.id = U.id then U else x, List.mem_map_of_mem _ hx, hgid x hx, ?_, ?_⟩
    · by_cases hxy : x.id = U.id
      · have hxe : x = ex := hinj hx hexmem (by rw [hxy, hid])
        rw [if_pos hxy, hrel, hxe]
      · rw [if_neg hxy]
    · by_cases hxy : x.id = U.id
      · have hxe : x = ex := hinj hx hexmem (by rw [hxy, hid])
        rw [if_pos hxy]
        exact Or.inr ⟨hxe, rfl⟩
      · rw [if_neg hxy]
        exact Or.inl rfl
  · rw [List.map_map]
    exact map_eq_map_of_mem fun x hx => hgid x hx
  · intro y hy
    obtain ⟨x, hx, hxy⟩ := List.mem_map.mp hy
    by_cases hc : x.id = U.id
    · rw [if_pos hc] at hxy
      exact Or.inl hxy.symm
    · rw [if_neg hc] at hxy
      exact Or.inr (hxy ▸ hx)

theorem createOrUpdate_eq_update {fresh : Nat → String} {now : Nat}
    {a : Anomaly} {rn : String} {incs : List Incident} {ex : Incident}
    (hfind : incs.find? (fun inc => decide (a.id ∈ inc.relatedAnomalies)) = some ex) :
    createOrUpdateIncident fresh now a rn incs =
      incs.map fun x => if x.id = (updatedWithAction fresh now rn ex).id
        then updatedWithAction fresh now rn ex else x := by
  unfold createOrUpdateIncident
  rw [hfind]
  show incSet incs (updatedWithAction fresh now rn ex) = _
  unfold incSet
  rw [if_pos (List.any_eq_true.mpr
    ⟨ex, List.mem_of_find?_eq_some hfind, decide_eq_true rfl⟩)]

theorem createOrUpdate_extends (fresh : Nat → String) (now : Nat) (a : Anomaly)
    (rn : String) (incs : List Incident)
    (hnd : (incs.map fun i => i.id).Nodup)
    (hf : ∀ inc ∈ incs, inc.id ≠ fresh 0) :
    (∀ inc ∈ incs, ∃ inc2 ∈ createOrUpdateIncident fresh now a rn incs,
      inc2.id = inc.id ∧ inc2.relatedAnomalies = inc.relatedAnomalies ∧
      TimelineExtends inc.timeline inc2.timeline) ∧
    (∃ inc2 ∈ createOrUpdateIncident fresh now a rn incs,
      a.id ∈ inc2.relatedAnomalies) ∧
    ((createOrUpdateIncident fresh now a rn incs).map fun i => i.id).Nodup := by
  cases hfind : incs.find? (fun inc => decide (a.id ∈ inc.relatedAnomalies)) with
  | some ex =>
    have hexmem := List.mem_of_find?_eq_some hfind
    have hexrel : a.id ∈ ex.relatedAnomalies := by
      simpa using List.find?_some hfind
    rw [createOrUpdate_eq_update hfind]
    obtain ⟨m1, m2, _⟩ := update_branch_master (U := updatedWithAction fresh now rn ex)
      hnd hexmem rfl rfl
    refine ⟨?_, ?_, ?_⟩
    · intro inc hm
      obtain ⟨y, hy, hyid, hyrel, hcase⟩ := m1 inc hm
      refine ⟨y, hy, hyid, hyrel, ?_⟩
      rcases hcase with rfl | ⟨hxe, hyU⟩
      · exact ⟨[], (List.append_nil _).symm⟩
      · refine ⟨[actionEventFor fresh now rn ex.id], ?_⟩
        rw [hyU, hxe]
        rfl
    · obtain ⟨y, hy, _, hyrel, _⟩ := m1 ex hexmem
      exact ⟨y, hy, by rw [hyrel]; exact hexrel⟩
    · rw [m2]
      exact hnd
  | none =>
    have hnone : ∀ inc ∈ incs, a.id ∉ inc.relatedAnomalies := fun inc hm => by
      simpa using List.find?_eq_none.mp hfind inc hm
    rw [createOrUpdate_creates fresh now a rn incs hnone hf]
    refine ⟨?_, ?_, ?_⟩
    · intro inc hm
      exact ⟨inc, List.mem_append_left _ hm, rfl, rfl, ⟨[], (List.append_nil _).symm⟩⟩
    · refine ⟨newIncidentOf fresh now a rn,
        List.mem_append_right _ (List.mem_singleton.mpr rfl), ?_⟩
      simp [newIncidentOf]
    · rw [List.map_append, List.map_singleton]
      exact nodup_ids_append_fresh hnd fun y hy => by
        obtain ⟨inc, hinc, rfl⟩ := List.mem_map.mp hy
        exact hf inc hinc

theorem timeline_sorted_append {tl : List IncidentEvent} {e : IncidentEvent}
    {c : Nat} (hs : TimelineSorted tl) (hb : ∀ x ∈ tl, x.timestamp ≤ c)
    (he : c ≤ e.timestamp) : TimelineSorted (tl ++ [e]) := by
  unfold TimelineSorted at hs ⊢
  rw [List.map_append, List.map_singleton]
  rw [List.pairwise_append]
  refine ⟨hs, List.pairwise_singleton _ _, ?_⟩
  intro t ht b hb'
  rw [List.mem_singleton.mp hb']
  obtain ⟨x, hx, rfl⟩ := List.mem_map.mp ht
  exact le_trans (hb x hx) he

theorem createOrUpdate_sorted (fresh : Nat → String) (now : Nat) (a : Anomaly)
    (rn : String) (incs : List Incident) (c : Nat) (hc : c ≤ now)
    (hnd : (incs.map fun i => i.id).Nodup)
    (hf : ∀ inc ∈ incs, inc.id ≠ fresh 0)
    (hsort : ∀ inc ∈ incs, TimelineSorted inc.timeline ∧
      ∀ e ∈ inc.timeline, e.timestamp ≤ c) :
    ∀ inc ∈ createOrUpdateIncident fresh now a rn incs,
      TimelineSorted inc.timeline ∧ ∀ e ∈ inc.timeline, e.timestamp ≤ now := by
  cases hfind : incs.find? (fun inc => decide (a.id ∈ inc.relatedAnomalies)) with
  | some ex =>
    have hexmem := List.mem_of_find?_eq_some hfind
    rw [createOrUpdate_eq_update hfind]
    obtain ⟨_, _, m3⟩ := update_branch_master (U := updatedWithAction fresh now rn ex)
      hnd hexmem rfl rfl
    intro y hy
    rcases m3 y hy with rfl | hymem
    · constructor
      · exact timeline_sorted_append (hsort ex hexmem).1
          (fun x hx => le_trans ((hsort ex hexmem).2 x hx) hc) (le_refl now)
      · intro e he
        rcases List.mem_append.mp he with hl | hr
        · exact le_trans ((hsort ex hexmem).2 e hl) hc
        · rw [List.mem_singleton.mp hr]
          exact le_refl now
    · exact ⟨(hsort y hymem).1,
        fun e he => le_trans ((hsort y hymem).2 e he) hc⟩
  | none =>
    have hnone : ∀ inc ∈ incs, a.id ∉ inc.relatedAnomalies := fun inc hm => by
      simpa using List.find?_eq_none.mp hfind inc hm
    rw [createOrUpdate_creates fresh now a rn incs hnone hf]
    intro y hy
    rcases List.mem_append.mp hy with hl | hr
    · exact ⟨(hsort y hl).1, fun e he => le_trans ((hsort y hl).2 e he) hc⟩
    · rw [List.mem_singleton.mp hr]
      constructor
      · unfold TimelineSorted newIncidentOf
        simp
      · intro e he
        unfold newIncidentOf at he
        simp only [List.mem_cons, List.not_mem_nil, or_false] at he
        rcases he with rfl | rfl <;> exact le_refl now

theorem tryAdd_eq_of_none {freshId : String} {now : Nat} {s : OrchestrationState}
    {incidentId : String} {ev : IncidentEventInput}
    (hfind : s.incidents.find? (fun inc => decide (inc.id = incidentId)) = none) :
    tryAddIncidentEvent freshId now s incidentId ev = s := by
  unfold tryAddIncidentEvent addIncidentEvent
  rw [hfind]

theorem tryAdd_eq_of_found {freshId : String} {now : Nat} {s : OrchestrationState}
    {incidentId : String} {ev : IncidentEventInput} {inc0 : Incident}
    (hfind : s.incidents.find? (fun inc => decide (inc.id = incidentId)) = some inc0) :
    tryAddIncidentEvent freshId now s incidentId ev =
      { s with incidents :=
          (s.incidents.map fun x =>
            if x.id = (withEventAppended freshId now incidentId ev inc0).id
            then withEventAppended freshId now incidentId ev inc0 else x) } := by
  unfold tryAddIncidentEvent addIncidentEvent
  rw [hfind]
  show ({ s with incidents :=
    (incSet s.incidents (withEventAppended freshId now incidentId ev inc0)) } :
      OrchestrationState) = _
  unfold incSet
  rw [if_pos (List.any_eq_true.mpr
    ⟨inc0, List.mem_of_find?_eq_some hfind, decide_eq_true rfl⟩)]

theorem tryAdd_extends (freshId : String) (now : Nat) (s : OrchestrationState)
    (incidentId : String) (ev : IncidentEventInput)
    (hnd : (s.incidents.map fun i => i.id).Nodup) :
    (∀ inc ∈ s.incidents,
      ∃ inc2 ∈ (tryAddIncidentEvent freshId now s incidentId ev).incidents,
        inc2.id = inc.id ∧ inc2.relatedAnomalies = inc.relatedAnomalies ∧
        TimelineExtends inc.timeline inc2.timeline) ∧
    (((tryAddIncidentEvent freshId now s incidentId ev).incidents.map
      fun i => i.id).Nodup) := by
  cases hfind : s.incidents.find? (fun inc => decide (inc.id = incidentId)) with
  | none =>
    rw [tryAdd_eq_of_none hfind]
    exact ⟨fun inc hm => ⟨inc, hm, rfl, rfl, ⟨[], (List.append_nil _).symm⟩⟩, hnd⟩
  | some inc0 =>
    have hmem0 := List.mem_of_find?_eq_some hfind
    rw [tryAdd_eq_of_found hfind]
    obtain ⟨m1, m2, _⟩ := update_branch_master
      (U := withEventAppended freshId now incidentId ev inc0) hnd hmem0 rfl rfl
    constructor
    · intro inc hm
      obtain ⟨y, hy, hyid, hyrel, hcase⟩ := m1 inc hm
      refine ⟨y, hy, hyid, hyrel, ?_⟩
      rcases hcase with rfl | ⟨hxe, hyU⟩
      · exact ⟨[], (List.append_nil _).symm⟩
      · refine ⟨[eventOfInput freshId incidentId ev], ?_⟩
        rw [hyU, hxe]
        rfl
    · rw [m2]
      exact hnd

theorem tryAdd_sorted (freshId : String) (now : Nat) (s : OrchestrationState)
    (incidentId : String) (ev : IncidentEventInput) (c : Nat)
    (hc : c ≤ now) (hts : c ≤ ev.timestamp)
    (hnd : (s.incidents.map fun i => i.id).Nodup)
    (hsort : ∀ inc ∈ s.incidents, TimelineSorted inc.timeline ∧
      ∀ e ∈ inc.timeline, e.timestamp ≤ c) :
    ∀ inc ∈ (tryAddIncidentEvent freshId now s incidentId ev).incidents,
      TimelineSorted inc.timeline ∧
      ∀ e ∈ inc.timeline, e.timestamp ≤ max now ev.timestamp := by
  have hcmax : c ≤ max now ev.timestamp := le_trans hc (le_max_left _ _)
  cases hfind : s.incidents.find? (fun inc => decide (inc.id = incidentId)) with
  | none =>
    rw [tryAdd_eq_of_none hfind]
    exact fun inc hm => ⟨(hsort inc hm).1,
      fun e he => le_trans ((hsort inc hm).2 e he) hcmax⟩
  | some inc0 =>
    have hmem0 := List.mem_of_find?_eq_some hfind
    rw [tryAdd_eq_of_found hfind]
    obtain ⟨_, _, m3⟩ := update_branch_master
      (U := withEventAppended freshId now incidentId ev inc0) hnd hmem0 rfl rfl
    intro y hy
    rcases m3 y hy with rfl | hymem
    · constructor
      · exact timeline_sorted_append (hsort inc0 hmem0).1
          (fun x hx => (hsort inc0 hmem0).2 x hx) hts
      · intro e he
        rcases List.mem_append.mp he with hl | hr
        · exact le_trans ((hsort inc0 hmem0).2 e hl) hcmax
        · rw [List.mem_singleton.mp hr]
          exact le_max_right _ _
    · exact ⟨(hsort y hymem).1,
        fun e he => le_trans ((hsort y hymem).2 e he) hcmax⟩

theorem reach_inv : ∀ (s : OrchestrationState) (resp : List String) (c : Nat),
    Reach s resp c → StateInv s resp c := by
  intro s resp c h
  induction h with
  | init pbs =>
    refine ⟨?_, ?_, ?_⟩
    · intro aid h
      exact absurd h (List.not_mem_nil aid)
    · exact List.nodup_nil
    · intro inc h
      exact absurd h (List.not_mem_nil inc)
  | @respond s1 resp1 c1 a rand fresh now h hc hf ih =>
    obtain ⟨ihcov, ihnd, ihsort⟩ := ih
    rcases hfb : findPlaybookForAnomaly s1.playbooks a with _ | pb
    · have he : respondToAnomaly rand fresh now s1 a = s1 := by
        unfold respondToAnomaly
        rw [hfb]
      have hr : respondedUpd s1 a resp1 = resp1 := by
        unfold respondedUpd
        rw [hfb]
        rfl
      rw [he, hr]
      exact ⟨ihcov, ihnd, fun inc hm => ⟨(ihsort inc hm).1,
        fun e he' => le_trans ((ihsort inc hm).2 e he') hc⟩⟩
    · have he := respond_found rand fresh now s1 a pb hfb
      have hr : respondedUpd s1 a resp1 = a.id :: resp1 := by
        unfold respondedUpd
        rw [hfb]
        rfl
      rw [he, hr]
      obtain ⟨hext, hcova, hnd2⟩ :=
        createOrUpdate_extends fresh now a pb.name s1.incidents ihnd hf
      refine ⟨?_, hnd2,
        createOrUpdate_sorted fresh now a pb.name s1.incidents c1 hc ihnd hf ihsort⟩
      intro aid hin
      rcases List.mem_cons.mp hin with rfl | hold
      · exact hcova
      · obtain ⟨inc, hminc, hrel⟩ := ihcov aid hold
        obtain ⟨inc2, hm2, _, hrel2, _⟩ := hext inc hminc
        exact ⟨inc2, hm2, by rw [hrel2]; exact hrel⟩
  | @addEvent s1 resp1 c1 freshId now incidentId ev h hc hts ih =>
    obtain ⟨ihcov, ihnd, ihsort⟩ := ih
    obtain ⟨hext, hnd2⟩ := tryAdd_extends freshId now s1 incidentId ev ihnd
    refine ⟨?_, hnd2,
      tryAdd_sorted freshId now s1 incidentId ev c1 hc hts ihnd ihsort⟩
    intro aid hin
    obtain ⟨inc, hminc, hrel⟩ := ihcov aid hin
    obtain ⟨inc2, hm2, _, hrel2, _⟩ := hext inc hminc
    exact ⟨inc2, hm2, by rw [hrel2]; exact hrel⟩

/-- C2 counterexample: the public `updateIncident` stores the caller's
incident wholesale, so calling it with a copy whose timeline was emptied
removes the stored incident's existing event — timelines are not append-only
under `updateIncident`; and `addIncidentEvent` accepts the caller's own event
timestamp, so appending an event stamped 0 behind an event stamped 5 leaves
the stored timeline with decreasing timestamps. -/
theorem incident_mutation_cex :
    ((updateIncident 6 sampleOrchState strippedIncident).incidents.map
      fun i => i.timeline) = [[]] ∧
    ∃ s1, addIncidentEvent "ev-9" 7 sampleOrchState "inc-1" ⟨"action", "x", 0⟩ =
        Except.ok s1 ∧
      (s1.incidents.map fun i => i.timeline.map fun e => e.timestamp) = [[5, 0]] ∧
      ∃ inc ∈ s1.incidents, ¬ TimelineSorted inc.timeline := by
  refine ⟨by decide, ?_⟩
  refine ⟨_, rfl, by decide, ?_⟩
  exact ⟨withEventAppended "ev-9" 7 "inc-1" ⟨"action", "x", 0⟩ sampleIncident,
    by decide, by unfold TimelineSorted; decide⟩

/-- C2 (amended): over every state reachable by the pipeline's own incident
operations — anomaly responses and `addIncidentEvent` calls whose supplied
timestamp does not predate the monotone clock, with freshly generated
incident ids — every anomaly that triggered a playbook response is contained
in the `relatedAnomalies` of at least one stored incident, stored incident
ids stay unique, and every stored timeline has non-decreasing timestamps;
moreover each single `respondToAnomaly` and each `addIncidentEvent` call
(successful or thrown) preserves every stored incident's existing timeline as
a prefix, removing and reordering nothing.  The public `updateIncident` is
excluded: it replaces the stored incident with the caller's copy and can drop
or reorder events (see the counterexample). -/
theorem incident_store_invariant :
    (∀ (s : OrchestrationState) (resp : List String) (c : Nat),
      Reach s resp c → StateInv s resp c) ∧
    (∀ (rand : Nat → Bool) (fresh : Nat → String) (now : Nat)
      (s : OrchestrationState) (a : Anomaly),
      ((s.incidents.map fun i => i.id).Nodup) →
      (∀ inc ∈ s.incidents, inc.id ≠ fresh 0) →
      ∀ inc ∈ s.incidents,
        ∃ inc2 ∈ (respondToAnomaly rand fresh now s a).incidents,
          inc2.id = inc.id ∧ TimelineExtends inc.timeline inc2.timeline) ∧
    (∀ (freshId : String) (now : Nat) (s : OrchestrationState)
      (incidentId : String) (ev : IncidentEventInput),
      ((s.incidents.map fun i => i.id).Nodup) →
      ∀ inc ∈ s.incidents,
        ∃ inc2 ∈ (tryAddIncidentEvent freshId now s incidentId ev).incidents,
          inc2.id = inc.id ∧ TimelineExtends inc.timeline inc2.timeline) := by
  refine ⟨reach_inv, ?_, ?_⟩
  · intro rand fresh now s a hnd hf inc hm
    rcases hfb : findPlaybookForAnomaly s.playbooks a with _ | pb
    · have he : respondToAnomaly rand fresh now s a = s := by
        unfold respondToAnomaly
        rw [hfb]
      rw [he]
      exact ⟨inc, hm, rfl, ⟨[], (List.append_nil _).symm⟩⟩
    · rw [respond_found rand fresh now s a pb hfb]
      obtain ⟨hext, _, _⟩ := createOrUpdate_extends fresh now a pb.name s.incidents hnd hf
      obtain ⟨inc2, hm2, hid2, _, hext2⟩ := hext inc hm
      exact ⟨inc2, hm2, hid2, hext2⟩
  · intro freshId now s incidentId ev hnd inc hm
    obtain ⟨hext, _⟩ := tryAdd_extends freshId now s incidentId ev hnd
    obtain ⟨inc2, hm2, hid2, _, hext2⟩ := hext inc hm
    exact ⟨inc2, hm2, hid2, hext2⟩

/-- C2 (amended) evaluated at concrete inputs: the initial reachable state
satisfies the invariant, and a concrete `addIncidentEvent` call preserves the
sample incident's timeline as a prefix. -/
theorem incident_store_invariant_w :
    StateInv ⟨[samplePlaybook], []⟩ [] 0 ∧
    ∃ inc2 ∈ (tryAddIncidentEvent "ev-9" 7 sampleOrchState "inc-1"
        ⟨"action", "x", 9⟩).incidents,
      inc2.id = sampleIncident.id ∧
      TimelineExtends sampleIncident.timeline inc2.timeline :=
  ⟨incident_store_invariant.1 _ _ _ (Reach.init [samplePlaybook]),
   incident_store_invariant.2.2 "ev-9" 7 sampleOrchState "inc-1"
     ⟨"action", "x", 9⟩ (by decide) sampleIncident (by decide)⟩

end CyberFusion
